import Mathlib

/-!
Verification of the layered raster-drawing core: a shallow embedding of the
history engine, layer stack, floating-selection engine and viewport transform
of `drawing-canvas.ts` and the layer operations of the application component,
together with proofs of the specified properties.

Pixel surfaces (`HTMLCanvasElement` / DOM `ImageData`) are modelled as
row-major lists of packed RGBA words.  The two browser Canvas-2D primitives
the code calls whose pixel output is produced by the platform, not by this
program — alpha-blended `drawImage` onto an existing surface, and scaling
`drawImage` resampling — are kept abstract as parameters (`Canvas2D`), so
every theorem holds for any platform implementation of them; raw
`getImageData` / `putImageData` / `clearRect` are exact and modelled
concretely.
-/

namespace Ketchup

/-- JavaScript `Math.round`: round half towards positive infinity. -/
def jsRound (q : ℚ) : Int := ⌊q + 1 / 2⌋

/-- Model of a DOM `ImageData` / canvas backing store: row-major packed
RGBA pixel words, value `0` = fully transparent. -/
structure ImageData where
  width : Nat
  height : Nat
  data : List Nat
deriving DecidableEq, Repr

/-- Read pixel `(x, y)`; out-of-bounds reads are transparent (`0`). -/
def ImageData.getPixel (img : ImageData) (x y : Nat) : Nat :=
  if x < img.width ∧ y < img.height then img.data.getD (y * img.width + x) 0 else 0

/-- Build a `w × h` surface from a pixel-valued function. -/
def ImageData.ofFn (w h : Nat) (f : Nat → Nat → Nat) : ImageData :=
  { width := w, height := h, data := (List.range (w * h)).map fun i => f (i % w) (i / w) }

/-- A surface whose backing store has the advertised size. -/
def ImageData.WF (img : ImageData) : Prop :=
  img.data.length = img.width * img.height

instance (img : ImageData) : Decidable img.WF :=
  inferInstanceAs (Decidable (_ = _))

/-- `ctx.clearRect(rx, ry, rw, rh)`: set the rectangle to transparent. -/
def ImageData.clearRect (img : ImageData) (rx ry rw rh : Nat) : ImageData :=
  ImageData.ofFn img.width img.height fun x y =>
    if rx ≤ x ∧ x < rx + rw ∧ ry ≤ y ∧ y < ry + rh then 0 else img.getPixel x y

/-- `ctx.getImageData(rx, ry, rw, rh)`: copy out a rectangle,
out-of-bounds pixels transparent. -/
def ImageData.getSubRect (img : ImageData) (rx ry rw rh : Nat) : ImageData :=
  ImageData.ofFn rw rh fun x y => img.getPixel (rx + x) (ry + y)

/-- `ctx.putImageData(src, 0, 0)`: raw (non-blending) overwrite of the
top-left corner of `dest` by `src`, clipped to `dest`. -/
def ImageData.putImageDataAt0 (dest src : ImageData) : ImageData :=
  ImageData.ofFn dest.width dest.height fun x y =>
    if x < src.width ∧ y < src.height then src.getPixel x y else dest.getPixel x y

/-- A freshly created canvas: fully transparent. -/
def ImageData.blank (w h : Nat) : ImageData :=
  ImageData.ofFn w h fun _ _ => 0

/-- The two Canvas-2D drawing primitives whose pixel arithmetic the browser
performs.  `drawImageAt dest src dx dy` is `destCtx.drawImage(src, dx, dy)`
(source-over compositing); `drawImageScaled src w h` is the surface produced
by `ctx.drawImage(src, 0, 0, w, h)` onto a fresh `w × h` canvas (the
platform's resampler).  All theorems are parametric in these. -/
structure Canvas2D where
  drawImageAt : ImageData → ImageData → Int → Int → ImageData
  drawImageScaled : ImageData → Nat → Nat → ImageData

/-- A concrete nearest-neighbour resampler, used to instantiate `Canvas2D`
in witnesses. -/
def nnScale (src : ImageData) (w h : Nat) : ImageData :=
  ImageData.ofFn w h fun x y => src.getPixel (x * src.width / w) (y * src.height / h)

/-- A concrete `drawImage` model (source pixel wins when not fully
transparent), used to instantiate `Canvas2D` in witnesses. -/
def simpleBlit (dest src : ImageData) (dx dy : Int) : ImageData :=
  ImageData.ofFn dest.width dest.height fun x y =>
    if dx ≤ (x : Int) ∧ dy ≤ (y : Int) then
      let sx := ((x : Int) - dx).toNat
      let sy := ((y : Int) - dy).toNat
      if sx < src.width ∧ sy < src.height ∧ src.getPixel sx sy ≠ 0 then
        src.getPixel sx sy
      else dest.getPixel x y
    else dest.getPixel x y

/-- Concrete Canvas-2D instance for witnesses and counterexamples. -/
def simpleOps : Canvas2D :=
  { drawImageAt := simpleBlit, drawImageScaled := nnScale }

/-- `Layer` from `types.ts`; the `canvas` element is its pixel surface. -/
structure Layer where
  id : String
  name : String
  visible : Bool
  opacity : ℚ
  canvas : ImageData
deriving DecidableEq, Repr

/-- `LayerSnapshot` from `types.ts`. -/
structure LayerSnapshot where
  id : String
  name : String
  visible : Bool
  opacity : ℚ
  imageData : ImageData
deriving DecidableEq, Repr

/-- `_snapshotLayer` in the application component: full-surface copy. -/
def snapshotLayer (l : Layer) : LayerSnapshot :=
  { id := l.id, name := l.name, visible := l.visible, opacity := l.opacity,
    imageData := l.canvas.getSubRect 0 0 l.canvas.width l.canvas.height }

/-- `HistoryEntry` from `types.ts` (closed tagged union). -/
inductive HistoryEntry where
  | draw (layerId : String) (before after : ImageData)
  | addLayer (layer : LayerSnapshot) (index : Int)
  | deleteLayer (layer : LayerSnapshot) (index : Int)
  | reorder (fromIndex toIndex : Nat)
  | visibility (layerId : String) (before after : Bool)
  | opacity (layerId : String) (before after : ℚ)
  | rename (layerId : String) (before after : String)
deriving DecidableEq, Repr

/-- The slice of the application component's `_state` the core operates on:
the layer stack, the active layer and the document dimensions. -/
structure DrawingState where
  layers : List Layer
  activeLayerId : String
  documentWidth : Nat
  documentHeight : Nat
deriving DecidableEq, Repr

/-- Selection geometry in document coordinates (`currentRect`). -/
structure Rect where
  x : ℚ
  y : ℚ
  w : ℚ
  h : ℚ
deriving DecidableEq, Repr

/-- A point in document coordinates. -/
structure Point where
  x : ℚ
  y : ℚ
deriving DecidableEq, Repr

/-- `FloatingSelection` from `types.ts`. -/
structure FloatingSelection where
  originalImageData : ImageData
  currentRect : Rect
  tempCanvas : ImageData
deriving DecidableEq, Repr

/-- The combined mutable state of `drawing-canvas.ts` (history log, cursor,
floating selection, pre-draw snapshot) and the application state it is
wired to. -/
structure SystemState where
  state : DrawingState
  history : List HistoryEntry
  historyIndex : Int
  maxHistory : Nat
  historyVersion : Nat
  float : Option FloatingSelection
  floatSrcCanvas : Option ImageData
  beforeDrawData : Option ImageData
deriving DecidableEq, Repr

/-- `canUndo` as published by `_notifyHistory`. -/
def canUndo (s : SystemState) : Bool := 0 ≤ s.historyIndex

/-- `canRedo` as published by `_notifyHistory`. -/
def canRedo (s : SystemState) : Bool := s.historyIndex < (s.history.length : Int) - 1

/-- `_pushHistoryEntry`: truncate the redo tail, append, evict the oldest
entry when over capacity (the cursor advances only when no eviction
happens, keeping it on the appended entry in both cases). -/
def pushHistoryEntry (s : SystemState) (entry : HistoryEntry) : SystemState :=
  let prevLength := s.history.length
  let truncated := s.history.take (s.historyIndex + 1).toNat
  let version1 := if truncated.length < prevLength then s.historyVersion + 1 else s.historyVersion
  let pushed := truncated ++ [entry]
  if pushed.length > s.maxHistory then
    { s with history := pushed.drop 1, historyVersion := version1 + 1 }
  else
    { s with history := pushed, historyIndex := s.historyIndex + 1, historyVersion := version1 }

/-- Update the first layer whose id matches (`layers.find(...)` followed by
in-place mutation of the found layer object). -/
def updateFirstLayer (ls : List Layer) (lid : String) (f : Layer → Layer) : List Layer :=
  match ls with
  | [] => []
  | l :: rest => if l.id = lid then f l :: rest else l :: updateFirstLayer rest lid f

/-- JavaScript `arr.splice(i, 0, x)` for `0 ≤ i`: insert, clamping `i` to the
array length. -/
def spliceInsert (ls : List Layer) (i : Nat) (x : Layer) : List Layer :=
  ls.take i ++ [x] ++ ls.drop i

/-- `_getActiveLayerCtx` / `state.layers.find(l => l.id === state.activeLayerId)`. -/
def findActiveLayer (d : DrawingState) : Option Layer :=
  d.layers.find? fun l => l.id = d.activeLayerId

/-- `_captureBeforeDraw`: snapshot the active layer's full surface. -/
def captureBeforeDraw (s : SystemState) : SystemState :=
  match findActiveLayer s.state with
  | none => s
  | some layer =>
    { s with beforeDrawData := (some
        (layer.canvas.getSubRect 0 0 s.state.documentWidth s.state.documentHeight)) }

/-- `_pushDrawHistory`: push a whole-surface `draw` record from the captured
before-snapshot and the current surface, then drop the capture. -/
def pushDrawHistory (s : SystemState) : SystemState :=
  match findActiveLayer s.state, s.beforeDrawData with
  | some layer, some before =>
    let after := layer.canvas.getSubRect 0 0 s.state.documentWidth s.state.documentHeight
    let s1 := pushHistoryEntry s (HistoryEntry.draw s.state.activeLayerId before after)
    { s1 with beforeDrawData := none }
  | _, _ => s

/-- `_clearFloatState` (interaction flags and the preview overlay are
presentation-only and not modelled). -/
def clearFloatState (s : SystemState) : SystemState :=
  { s with float := none, floatSrcCanvas := none }

/-- `_commitFloat`: paint the render buffer onto the active layer at the
rounded origin, finalize the pending `draw` record, clear the float. -/
def commitFloat (ops : Canvas2D) (s : SystemState) : SystemState :=
  match s.float with
  | none => s
  | some f =>
    match findActiveLayer s.state with
    | none => s
    | some _ =>
      let paint : Layer → Layer := fun l =>
        { l with canvas := (ops.drawImageAt l.canvas f.tempCanvas
            (jsRound f.currentRect.x) (jsRound f.currentRect.y)) }
      let s1 := { s with state.layers := (updateFirstLayer s.state.layers s.state.activeLayerId paint) }
      clearFloatState (pushDrawHistory s1)

/-- `_liftToFloat`: capture the pre-lift surface, copy the rect out, clear it
on the live layer, build the source canvas and the render buffer. -/
def liftToFloat (ops : Canvas2D) (s : SystemState) (x y w h : Nat) : SystemState :=
  match findActiveLayer s.state with
  | none => s
  | some layer =>
    let s1 := captureBeforeDraw s
    let imageData := layer.canvas.getSubRect x y w h
    let clearIt : Layer → Layer := fun l => { l with canvas := l.canvas.clearRect x y w h }
    let s2 := { s1 with state.layers := (updateFirstLayer s1.state.layers s1.state.activeLayerId clearIt) }
    let src := ImageData.putImageDataAt0 (ImageData.blank w h) imageData
    let tmp := ops.drawImageAt (ImageData.blank w h) src 0 0
    let fl : FloatingSelection :=
      { originalImageData := imageData,
        currentRect := ⟨(x : ℚ), (y : ℚ), (w : ℚ), (h : ℚ)⟩,
        tempCanvas := tmp }
    { s2 with float := some fl, floatSrcCanvas := some src }

/-- `deleteSelection`: finalize the pending `draw` record without repainting,
capturing a before-snapshot first if none is pending. -/
def deleteSelection (s : SystemState) : SystemState :=
  match s.float with
  | none => s
  | some _ =>
    let s1 := match s.beforeDrawData with
      | none => captureBeforeDraw s
      | some _ => s
    clearFloatState (pushDrawHistory s1)

/-- The payloads of the `layer-undo` events `drawing-canvas` dispatches to
the application component. -/
inductive LayerUndoDetail where
  | removeLayer (layerId : String)
  | restoreLayer (snapshot : LayerSnapshot) (index : Int)
  | reorder (fromIndex toIndex : Nat)
  | refresh
deriving DecidableEq, Repr

/-- `_onLayerUndo` in the application component.  In the `removeLayer`
branch, when the removed id is active but absent from the list (impossible
while the document invariant holds — JavaScript would throw there) the model
keeps the current active id. -/
def onLayerUndo (d : DrawingState) (detail : LayerUndoDetail) : DrawingState :=
  match detail with
  | .removeLayer lid =>
    let removedIdx : Int := match d.layers.findIdx? (fun l => l.id = lid) with
      | some i => (i : Int)
      | none => -1
    let newLayers := d.layers.filter fun l => l.id ≠ lid
    if newLayers.isEmpty then d
    else
      let newActiveId :=
        if d.activeLayerId = lid then
          match newLayers.get? (min removedIdx ((newLayers.length : Int) - 1)).toNat with
          | some l => l.id
          | none => d.activeLayerId
        else d.activeLayerId
      { d with layers := newLayers, activeLayerId := newActiveId }
  | .restoreLayer snap index =>
    let canvas := ImageData.putImageDataAt0
      (ImageData.blank d.documentWidth d.documentHeight) snap.imageData
    let layer : Layer := { id := snap.id, name := snap.name, visible := snap.visible,
                           opacity := snap.opacity, canvas := canvas }
    let idx : Nat := if index = -1 then d.layers.length else index.toNat
    { d with layers := spliceInsert d.layers idx layer, activeLayerId := layer.id }
  | .reorder fromIndex toIndex =>
    match d.layers.get? fromIndex with
    | none => d
    | some moved =>
      { d with layers := spliceInsert (d.layers.eraseIdx fromIndex) toIndex moved }
  | .refresh => d

/-- `_applyUndo`: apply the inverse effect of a record.  Structural entries
are dispatched synchronously to `_onLayerUndo`. -/
def applyUndo (s : SystemState) (e : HistoryEntry) : SystemState :=
  match e with
  | .draw lid before _after =>
    { s with state.layers := (updateFirstLayer s.state.layers lid
        (fun l => { l with canvas := l.canvas.putImageDataAt0 before })) }
  | .addLayer snap _idx =>
    { s with state := onLayerUndo s.state (.removeLayer snap.id) }
  | .deleteLayer snap idx =>
    { s with state := onLayerUndo s.state (.restoreLayer snap idx) }
  | .reorder fromIndex toIndex =>
    { s with state := onLayerUndo s.state (.reorder toIndex fromIndex) }
  | .visibility lid before _after =>
    { s with state.layers := (updateFirstLayer s.state.layers lid
        (fun l => { l with visible := before })) }
  | .opacity lid before _after =>
    { s with state.layers := (updateFirstLayer s.state.layers lid
        (fun l => { l with opacity := before })) }
  | .rename lid before _after =>
    { s with state.layers := (updateFirstLayer s.state.layers lid
        (fun l => { l with name := before })) }

/-- `_applyRedo`: apply the forward effect of a record. -/
def applyRedo (s : SystemState) (e : HistoryEntry) : SystemState :=
  match e with
  | .draw lid _before after =>
    { s with state.layers := (updateFirstLayer s.state.layers lid
        (fun l => { l with canvas := l.canvas.putImageDataAt0 after })) }
  | .addLayer snap idx =>
    { s with state := onLayerUndo s.state (.restoreLayer snap idx) }
  | .deleteLayer snap _idx =>
    { s with state := onLayerUndo s.state (.removeLayer snap.id) }
  | .reorder fromIndex toIndex =>
    { s with state := onLayerUndo s.state (.reorder fromIndex toIndex) }
  | .visibility lid _before after =>
    { s with state.layers := (updateFirstLayer s.state.layers lid
        (fun l => { l with visible := after })) }
  | .opacity lid _before after =>
    { s with state.layers := (updateFirstLayer s.state.layers lid
        (fun l => { l with opacity := after })) }
  | .rename lid _before after =>
    { s with state.layers := (updateFirstLayer s.state.layers lid
        (fun l => { l with name := after })) }

/-- `undo()`: boundary guard, commit any float, apply the inverse of the
entry at the cursor, decrement the cursor.  The out-of-range entry lookup
(impossible while the cursor invariant holds) only decrements. -/
def undo (ops : Canvas2D) (s : SystemState) : SystemState :=
  if s.historyIndex < 0 then s
  else
    let s1 := commitFloat ops s
    match s1.history.get? s1.historyIndex.toNat with
    | some entry => applyUndo { s1 with historyIndex := s1.historyIndex - 1 } entry
    | none => { s1 with historyIndex := s1.historyIndex - 1 }

/-- `redo()`: boundary guard, commit any float, increment the cursor, apply
the forward effect of the new current entry. -/
def redo (ops : Canvas2D) (s : SystemState) : SystemState :=
  if (s.history.length : Int) - 1 ≤ s.historyIndex then s
  else
    let s1 := commitFloat ops s
    let s2 := { s1 with historyIndex := s1.historyIndex + 1 }
    match s2.history.get? s2.historyIndex.toNat with
    | some entry => applyRedo s2 entry
    | none => s2

/-- `createLayer` in the application component: a fresh, fully transparent,
fully visible layer (the generated id and counter-based name are passed in). -/
def createLayer (id name : String) (width height : Nat) : Layer :=
  { id := id, name := name, visible := true, opacity := 1, canvas := ImageData.blank width height }

/-- Context `addLayer`: insert a fresh layer above the active one, make it
active, record an `add-layer` entry. -/
def addLayerApp (s : SystemState) (newId newName : String) : SystemState :=
  let layer := createLayer newId newName s.state.documentWidth s.state.documentHeight
  let activeIdx : Int := match s.state.layers.findIdx? (fun l => l.id = s.state.activeLayerId) with
    | some i => (i : Int)
    | none => -1
  let insertIdx := activeIdx + 1
  let newLayers := spliceInsert s.state.layers insertIdx.toNat layer
  let s1 := { s with state.layers := newLayers, state.activeLayerId := layer.id }
  pushHistoryEntry s1 (HistoryEntry.addLayer (snapshotLayer layer) insertIdx)

/-- Context `deleteLayer`: rejected as a no-op on the last layer and on an
unknown id; otherwise remove, fix the active layer, record a `delete-layer`
entry.  When the deleted id is active and the remaining list cannot supply a
replacement (impossible with unique ids — JavaScript would throw) the model
keeps the current id. -/
def deleteLayerApp (s : SystemState) (id : String) : SystemState :=
  if s.state.layers.length ≤ 1 then s
  else
    match s.state.layers.findIdx? (fun l => l.id = id) with
    | none => s
    | some idx =>
      match s.state.layers.get? idx with
      | none => s
      | some layer =>
        let snapshot := snapshotLayer layer
        let newLayers := s.state.layers.filter fun l => l.id ≠ id
        let newActiveId :=
          if s.state.activeLayerId = id then
            match newLayers.get? (min idx (newLayers.length - 1)) with
            | some l => l.id
            | none => s.state.activeLayerId
          else s.state.activeLayerId
        let s1 := { s with state.layers := newLayers, state.activeLayerId := newActiveId }
        pushHistoryEntry s1 (HistoryEntry.deleteLayer snapshot (idx : Int))

/-- Context `setActiveLayer`: only switches to a member id; commits any
floating selection first (`clearSelection`). -/
def setActiveLayerApp (ops : Canvas2D) (s : SystemState) (id : String) : SystemState :=
  if s.state.layers.any (fun l => l.id = id) then
    let s1 := commitFloat ops s
    { s1 with state.activeLayerId := id }
  else s

/-- Context `setLayerOpacity`: update the named layer's opacity in place;
no history record. -/
def setLayerOpacityApp (s : SystemState) (id : String) (opacity : ℚ) : SystemState :=
  match s.state.layers.find? (fun l => l.id = id) with
  | none => s
  | some _ =>
    { s with state.layers :=
        (s.state.layers.map fun l => if l.id = id then { l with opacity := opacity } else l) }

/-- Context `reorderLayer`: move a layer to a new index, record a `reorder`
entry. -/
def reorderLayerApp (s : SystemState) (id : String) (newIndex : Nat) : SystemState :=
  match s.state.layers.findIdx? (fun l => l.id = id) with
  | none => s
  | some oldIndex =>
    if oldIndex = newIndex then s
    else
      match s.state.layers.get? oldIndex with
      | none => s
      | some layer =>
        let newLayers := spliceInsert (s.state.layers.eraseIdx oldIndex) newIndex layer
        let s1 := { s with state.layers := newLayers }
        pushHistoryEntry s1 (HistoryEntry.reorder oldIndex newIndex)

/-- `_onCommitOpacity`: the separate commit notification that records the
`opacity` history entry for a finished drag. -/
def onCommitOpacity (s : SystemState) (layerId : String) (before after : ℚ) : SystemState :=
  pushHistoryEntry s (HistoryEntry.opacity layerId before after)

/-- The document invariant: the layer list is non-empty and the active id
references a member. -/
def DocInvariant (d : DrawingState) : Prop :=
  d.layers ≠ [] ∧ ∃ l ∈ d.layers, l.id = d.activeLayerId

instance (d : DrawingState) : Decidable (DocInvariant d) :=
  inferInstanceAs (Decidable (_ ∧ _))

/-- The eight resize handles. -/
inductive ResizeHandle where
  | nw | n | ne | e | se | s | sw | w
deriving DecidableEq, Repr

/-- Handles on the left edge (`nw`, `w`, `sw`). -/
def inLeft : ResizeHandle → Bool
  | .nw | .w | .sw => true
  | _ => false

/-- Handles on the right edge (`ne`, `e`, `se`). -/
def inRight : ResizeHandle → Bool
  | .ne | .e | .se => true
  | _ => false

/-- Handles on the top edge (`nw`, `n`, `ne`). -/
def inTop : ResizeHandle → Bool
  | .nw | .n | .ne => true
  | _ => false

/-- Handles on the bottom edge (`sw`, `s`, `se`). -/
def inBottom : ResizeHandle → Bool
  | .sw | .s | .se => true
  | _ => false

/-- The four corner handles. -/
def isCorner : ResizeHandle → Bool
  | .nw | .ne | .se | .sw => true
  | _ => false

/-- The geometry of `_applyResize`: new rect from the drag origin
(`_floatResizeOrigin`), the handle and the pointer, with aspect-ratio
enforcement for corners, opposite-corner re-anchoring, flip correction and
the minimum-size floor. -/
def resizeRect (zoom : ℚ) (handle : ResizeHandle) (orig : Rect) (start p : Point) : Rect :=
  let dx := p.x - start.x
  let dy := p.y - start.y
  let minSize := 4 / zoom
  let x1 := if inLeft handle then orig.x + dx else orig.x
  let w1 := if inLeft handle then orig.w - dx else if inRight handle then orig.w + dx else orig.w
  let y1 := if inTop handle then orig.y + dy else orig.y
  let h1 := if inTop handle then orig.h - dy else if inBottom handle then orig.h + dy else orig.h
  let aspect := orig.w / orig.h
  let wDominant := |w1 - orig.w| / orig.w > |h1 - orig.h| / orig.h
  let w2 := if isCorner handle then (if wDominant then w1 else h1 * aspect) else w1
  let h2 := if isCorner handle then (if wDominant then w1 / aspect else h1) else h1
  let x2 := if isCorner handle ∧ (handle = .nw ∨ handle = .sw) then orig.x + orig.w - w2 else x1
  let y2 := if isCorner handle ∧ (handle = .nw ∨ handle = .ne) then orig.y + orig.h - h2 else y1
  let x3 := if w2 < 0 then x2 + w2 else x2
  let w3 := if w2 < 0 then -w2 else w2
  let y3 := if h2 < 0 then y2 + h2 else y2
  let h3 := if h2 < 0 then -h2 else h2
  let w4 := if w3 < minSize then minSize else w3
  let h4 := if h3 < minSize then minSize else h3
  ⟨x3, y3, w4, h4⟩

/-- `_rebuildTempCanvas`: re-derive the render buffer by resampling the
source canvas (the immutable original pixels) at the rect's rounded size. -/
def rebuildTempCanvas (ops : Canvas2D) (src : ImageData) (fl : FloatingSelection) :
    FloatingSelection :=
  let newW := (max 1 (jsRound fl.currentRect.w)).toNat
  let newH := (max 1 (jsRound fl.currentRect.h)).toNat
  { fl with tempCanvas := ops.drawImageScaled src newW newH }

/-- `_applyResize`: update the current rect from the drag, then rebuild the
render buffer from the source canvas. -/
def applyResize (ops : Canvas2D) (zoom : ℚ) (handle : ResizeHandle) (orig : Rect)
    (start : Point) (src : ImageData) (fl : FloatingSelection) (p : Point) :
    FloatingSelection :=
  rebuildTempCanvas ops src { fl with currentRect := resizeRect zoom handle orig start p }

/-- One resize pointer-move step, as a fold step over drag events
`(zoom, handle, origin rect, origin point, pointer)`. -/
def resizeStep (ops : Canvas2D) (src : ImageData) (fl : FloatingSelection)
    (ev : ℚ × ResizeHandle × Rect × Point × Point) : FloatingSelection :=
  applyResize ops ev.1 ev.2.1 ev.2.2.1 ev.2.2.2.1 src fl ev.2.2.2.2

/-- The viewport transform state of `drawing-canvas.ts`. -/
structure Viewport where
  panX : ℚ
  panY : ℚ
  zoom : ℚ
deriving DecidableEq, Repr

/-- `_getDocPoint`: screen (viewport-relative) to document coordinates. -/
def docPointOf (v : Viewport) (vx vy : ℚ) : Point :=
  ⟨(vx - v.panX) / v.zoom, (vy - v.panY) / v.zoom⟩

/-- Document to screen coordinates (`cx * zoom + panX`, as used for handle
placement). -/
def docToScreen (v : Viewport) (d : Point) : Point :=
  ⟨d.x * v.zoom + v.panX, d.y * v.zoom + v.panY⟩

/-- The ctrl-wheel branch of `_onWheel`: zoom anchored to the cursor, with
the zoom factor clamped to `[0.1, 10]` and pan recomputed so the document
point under the cursor stays put. -/
def wheelZoom (v : Viewport) (vx vy deltaY : ℚ) : Viewport :=
  let docX := (vx - v.panX) / v.zoom
  let docY := (vy - v.panY) / v.zoom
  let raw := if deltaY < 0 then v.zoom * (11 / 10) else v.zoom * (10 / 11)
  let newZoom := min 10 (max (1 / 10) raw)
  if newZoom = v.zoom then v
  else { panX := vx - docX * newZoom, panY := vy - docY * newZoom, zoom := newZoom }

/-- Concrete 2×2 fixture layers and states for witnesses and
counterexamples. -/
def layerA : Layer :=
  { id := "A", name := "Layer 1", visible := true, opacity := 1, canvas := ⟨2, 2, [1, 2, 3, 4]⟩ }

/-- Second fixture layer. -/
def layerB : Layer :=
  { id := "B", name := "Layer 2", visible := true, opacity := 1, canvas := ⟨2, 2, [5, 6, 7, 8]⟩ }

/-- Fixture drawing state: two layers, `A` active, 2×2 document. -/
def baseDoc : DrawingState :=
  { layers := [layerA, layerB], activeLayerId := "A", documentWidth := 2, documentHeight := 2 }

/-- Fixture system state: empty history, no float. -/
def baseSystem : SystemState :=
  { state := baseDoc, history := [], historyIndex := -1, maxHistory := 50,
    historyVersion := 0, float := none, floatSrcCanvas := none, beforeDrawData := none }

/-- A `draw` record on layer `B` (not the active layer), applied: layer `B`
currently shows its `after` pixels. -/
def drawEntryB : HistoryEntry :=
  HistoryEntry.draw "B" ⟨2, 2, [0, 0, 0, 0]⟩ ⟨2, 2, [5, 6, 7, 8]⟩

/-- Fixture state whose history holds one applied `draw` record on the
non-active layer `B`. -/
def cexSystem : SystemState :=
  { baseSystem with history := [drawEntryB], historyIndex := 0 }

/-- 51 distinct concrete `draw` records, for the capacity scenario. -/
def test51 : List HistoryEntry :=
  (List.range 51).map fun i => HistoryEntry.draw "A" ⟨1, 1, [i]⟩ ⟨1, 1, [i]⟩

/-- The first (oldest) of the 51 records. -/
def entry0 : HistoryEntry := HistoryEntry.draw "A" ⟨1, 1, [0]⟩ ⟨1, 1, [0]⟩

/-- Fixture system state with a single layer. -/
def singleSystem : SystemState :=
  { baseSystem with state := { baseDoc with layers := [layerA] } }

theorem ImageData.ofFn_WF (w h : Nat) (f : Nat → Nat → Nat) : (ImageData.ofFn w h f).WF := by
  simp [ImageData.ofFn, ImageData.WF]

theorem ImageData.ofFn_eq_self (img : ImageData) (f : Nat → Nat → Nat) (hW : img.WF)
    (h : ∀ x y, x < img.width → y < img.height → f x y = img.getPixel x y) :
    ImageData.ofFn img.width img.height f = img := by
  rcases img with ⟨w, ht, d⟩
  simp only [ImageData.WF] at hW
  simp only [ImageData.ofFn, ImageData.mk.injEq, true_and]
  apply List.ext_getElem?
  intro i
  by_cases hi : i < w * ht
  · have hw : 0 < w := by
      rcases Nat.eq_zero_or_pos w with h0 | h0
      · subst h0; simp at hi
      · exact h0
    have hx : i % w < w := Nat.mod_lt _ hw
    have hy : i / w < ht := by
      rw [Nat.div_lt_iff_lt_mul hw, Nat.mul_comm ht w]
      exact hi
    rw [List.getElem?_map, List.getElem?_range hi]
    have hfx := h (i % w) (i / w) hx hy
    simp only [ImageData.getPixel] at hfx
    rw [Option.map_some', hfx, if_pos ⟨hx, hy⟩]
    have hidx : i / w * w + i % w = i := by
      rw [Nat.mul_comm]
      exact Nat.div_add_mod i w
    rw [hidx, List.getD_eq_getElem?_getD, List.getElem?_eq_getElem (by omega : i < d.length)]
    rfl
  · rw [List.getElem?_map]
    rw [List.getElem?_eq_none (by simpa using Nat.le_of_not_lt hi)]
    rw [List.getElem?_eq_none (by omega)]
    rfl

theorem ImageData.getSubRect_zero (img : ImageData) (hW : img.WF) :
    img.getSubRect 0 0 img.width img.height = img := by
  unfold ImageData.getSubRect
  exact ImageData.ofFn_eq_self img _ hW (by intro x y hx hy; simp)

theorem ImageData.putImageDataAt0_of_cover (dest src : ImageData)
    (hw : src.width = dest.width) (hh : src.height = dest.height) (hWF : src.WF) :
    dest.putImageDataAt0 src = src := by
  unfold ImageData.putImageDataAt0
  rw [← hw, ← hh]
  exact ImageData.ofFn_eq_self src _ hWF (fun x y hx hy => by simp [hx, hy])

theorem ImageData.clearRect_width (img : ImageData) (a b c d : Nat) :
    (img.clearRect a b c d).width = img.width := rfl

theorem ImageData.clearRect_height (img : ImageData) (a b c d : Nat) :
    (img.clearRect a b c d).height = img.height := rfl

theorem ImageData.clearRect_WF (img : ImageData) (a b c d : Nat) :
    (img.clearRect a b c d).WF := ImageData.ofFn_WF _ _ _

theorem ImageData.getSubRect_width (img : ImageData) (a b c d : Nat) :
    (img.getSubRect a b c d).width = c := rfl

theorem ImageData.getSubRect_height (img : ImageData) (a b c d : Nat) :
    (img.getSubRect a b c d).height = d := rfl

theorem ImageData.getSubRect_WF (img : ImageData) (a b c d : Nat) :
    (img.getSubRect a b c d).WF := ImageData.ofFn_WF _ _ _

theorem updateFirstLayer_comp (ls : List Layer) (lid : String) (f g : Layer → Layer)
    (hf : ∀ l, (f l).id = l.id) :
    updateFirstLayer (updateFirstLayer ls lid f) lid g =
      updateFirstLayer ls lid (fun l => g (f l)) := by
  induction ls with
  | nil => rfl
  | cons l rest ih =>
    simp only [updateFirstLayer]
    by_cases h : l.id = lid
    · simp only [if_pos h, updateFirstLayer, hf l, if_pos h]
    · simp only [if_neg h, updateFirstLayer, if_neg h, ih]

theorem updateFirstLayer_eq_self (ls : List Layer) (lid : String) (f : Layer → Layer)
    (h : ∀ l, ls.find? (fun l => l.id = lid) = some l → f l = l) :
    updateFirstLayer ls lid f = ls := by
  induction ls with
  | nil => rfl
  | cons l rest ih =>
    simp only [updateFirstLayer]
    by_cases hl : l.id = lid
    · rw [if_pos hl, h l (by rw [List.find?_cons_of_pos _ (by simpa using hl)])]
    · rw [if_neg hl, ih]
      intro l' hl'
      exact h l' (by rw [List.find?_cons_of_neg _ (by simpa using hl)]; exact hl')

theorem find?_updateFirstLayer (ls : List Layer) (lid : String) (f : Layer → Layer)
    (hf : ∀ l, (f l).id = l.id) :
    (updateFirstLayer ls lid f).find? (fun l => l.id = lid) =
      (ls.find? (fun l => l.id = lid)).map f := by
  induction ls with
  | nil => rfl
  | cons l rest ih =>
    simp only [updateFirstLayer]
    by_cases h : l.id = lid
    · rw [if_pos h, List.find?_cons_of_pos _ (by simp [hf l, h]),
        List.find?_cons_of_pos _ (by simpa using h), Option.map_some']
    · rw [if_neg h, List.find?_cons_of_neg _ (by simpa using h),
        List.find?_cons_of_neg _ (by simpa using h), ih]

theorem pushHistoryEntry_state (s : SystemState) (e : HistoryEntry) :
    (pushHistoryEntry s e).state = s.state ∧
    (pushHistoryEntry s e).float = s.float ∧
    (pushHistoryEntry s e).floatSrcCanvas = s.floatSrcCanvas ∧
    (pushHistoryEntry s e).beforeDrawData = s.beforeDrawData ∧
    (pushHistoryEntry s e).maxHistory = s.maxHistory := by
  unfold pushHistoryEntry
  refine ⟨?_, ?_, ?_, ?_, ?_⟩ <;> (dsimp only; split <;> rfl)

theorem pushHistoryEntry_char (s : SystemState) (e : HistoryEntry)
    (h1 : -1 ≤ s.historyIndex) (h2 : s.historyIndex < (s.history.length : Int))
    (h3 : s.history.length ≤ s.maxHistory) (h4 : 1 ≤ s.maxHistory) :
    (pushHistoryEntry s e).history =
      (if (s.historyIndex + 1).toNat + 1 > s.maxHistory
       then (s.history.take (s.historyIndex + 1).toNat ++ [e]).drop 1
       else s.history.take (s.historyIndex + 1).toNat ++ [e]) ∧
    (pushHistoryEntry s e).historyIndex = ((pushHistoryEntry s e).history.length : Int) - 1 ∧
    (pushHistoryEntry s e).history.get? (pushHistoryEntry s e).historyIndex.toNat = some e ∧
    (pushHistoryEntry s e).history.length ≤ s.maxHistory := by
  have htn : (s.historyIndex + 1).toNat ≤ s.history.length := by omega
  have hlen : (s.history.take (s.historyIndex + 1).toNat).length = (s.historyIndex + 1).toNat := by
    rw [List.length_take]; omega
  have hcond : ((s.history.take (s.historyIndex + 1).toNat ++ [e]).length > s.maxHistory) ↔
      ((s.historyIndex + 1).toNat + 1 > s.maxHistory) := by
    rw [List.length_append, List.length_singleton, hlen]
  have hHist : (pushHistoryEntry s e).history =
      (if (s.historyIndex + 1).toNat + 1 > s.maxHistory
       then (s.history.take (s.historyIndex + 1).toNat ++ [e]).drop 1
       else s.history.take (s.historyIndex + 1).toNat ++ [e]) := by
    unfold pushHistoryEntry
    dsimp only
    by_cases hc : (s.historyIndex + 1).toNat + 1 > s.maxHistory
    · rw [if_pos (hcond.mpr hc), if_pos hc]
    · rw [if_neg (fun hx => hc (hcond.mp hx)), if_neg hc]
  have hIdx : (pushHistoryEntry s e).historyIndex =
      (if (s.historyIndex + 1).toNat + 1 > s.maxHistory
       then s.historyIndex else s.historyIndex + 1) := by
    unfold pushHistoryEntry
    dsimp only
    by_cases hc : (s.historyIndex + 1).toNat + 1 > s.maxHistory
    · rw [if_pos (hcond.mpr hc), if_pos hc]
    · rw [if_neg (fun hx => hc (hcond.mp hx)), if_neg hc]
  by_cases hc : (s.historyIndex + 1).toNat + 1 > s.maxHistory
  · have ht1 : 1 ≤ (s.historyIndex + 1).toNat := by omega
    rw [hHist, hIdx, if_pos hc, if_pos hc]
    have hlen2 : ((s.history.take (s.historyIndex + 1).toNat ++ [e]).drop 1).length =
        (s.historyIndex + 1).toNat := by
      rw [List.length_drop, List.length_append, List.length_singleton, hlen]
      omega
    refine ⟨rfl, ?_, ?_, ?_⟩
    · rw [hlen2]; omega
    · have h5 : s.historyIndex.toNat = (s.historyIndex + 1).toNat - 1 := by omega
      rw [List.get?_eq_getElem?, h5, List.getElem?_drop]
      have h6 : 1 + ((s.historyIndex + 1).toNat - 1) = (s.historyIndex + 1).toNat := by omega
      rw [h6, List.getElem?_append_right (by omega)]
      rw [hlen]
      simp
    · rw [hlen2]; omega
  · rw [hHist, hIdx, if_neg hc, if_neg hc]
    have hlen2 : (s.history.take (s.historyIndex + 1).toNat ++ [e]).length =
        (s.historyIndex + 1).toNat + 1 := by
      rw [List.length_append, List.length_singleton, hlen]
    refine ⟨rfl, ?_, ?_, ?_⟩
    · rw [hlen2]; omega
    · rw [List.get?_eq_getElem?, List.getElem?_append_right (by omega)]
      rw [hlen]
      have h7 : (s.historyIndex + 1).toNat - (s.historyIndex + 1).toNat = 0 := by omega
      simp
    · rw [hlen2]; omega

set_option maxRecDepth 20000 in
/-- C2: recording a new entry discards all entries after the cursor, appends
the entry, and leaves the cursor on the new entry (so `canRedo` is false);
when the array would exceed the capacity of 50 the oldest entry is evicted
instead of advancing the cursor.  Pushing 51 records into an empty history
leaves exactly the last 50 retrievable, the oldest unrecoverable, and the
cursor on the last entry. -/
theorem record_truncates_appends_and_caps :
    (∀ (s : SystemState) (e : HistoryEntry),
      -1 ≤ s.historyIndex → s.historyIndex < (s.history.length : Int) →
      s.history.length ≤ s.maxHistory → s.maxHistory = 50 →
      (pushHistoryEntry s e).history =
        (if (s.historyIndex + 1).toNat + 1 > 50
         then (s.history.take (s.historyIndex + 1).toNat ++ [e]).drop 1
         else s.history.take (s.historyIndex + 1).toNat ++ [e]) ∧
      (pushHistoryEntry s e).historyIndex = ((pushHistoryEntry s e).history.length : Int) - 1 ∧
      (pushHistoryEntry s e).history.get? (pushHistoryEntry s e).historyIndex.toNat = some e ∧
      canRedo (pushHistoryEntry s e) = false ∧
      (pushHistoryEntry s e).history.length ≤ 50) ∧
    ((test51.foldl pushHistoryEntry baseSystem).history = test51.drop 1 ∧
     (test51.foldl pushHistoryEntry baseSystem).history.length = 50 ∧
     (test51.foldl pushHistoryEntry baseSystem).historyIndex = 49 ∧
     canRedo (test51.foldl pushHistoryEntry baseSystem) = false ∧
     test51.get? 0 = some entry0 ∧
     entry0 ∉ (test51.foldl pushHistoryEntry baseSystem).history) := by
  constructor
  · intro s e ha hb hc hd
    obtain ⟨hH, hI, hG, hL⟩ := pushHistoryEntry_char s e ha hb hc (by omega)
    rw [hd] at hH hL
    refine ⟨hH, hI, hG, ?_, hL⟩
    simp only [canRedo, decide_eq_false_iff_not, not_lt]
    omega
  · decide

theorem record_truncates_appends_and_caps_witness :
    (-1 : Int) ≤ cexSystem.historyIndex ∧
    cexSystem.historyIndex < (cexSystem.history.length : Int) ∧
    cexSystem.history.length ≤ cexSystem.maxHistory ∧
    cexSystem.maxHistory = 50 ∧
    ((pushHistoryEntry cexSystem entry0).history =
      (if (cexSystem.historyIndex + 1).toNat + 1 > 50
       then (cexSystem.history.take (cexSystem.historyIndex + 1).toNat ++ [entry0]).drop 1
       else cexSystem.history.take (cexSystem.historyIndex + 1).toNat ++ [entry0]) ∧
     (pushHistoryEntry cexSystem entry0).historyIndex =
       ((pushHistoryEntry cexSystem entry0).history.length : Int) - 1 ∧
     (pushHistoryEntry cexSystem entry0).history.get?
       (pushHistoryEntry cexSystem entry0).historyIndex.toNat = some entry0 ∧
     canRedo (pushHistoryEntry cexSystem entry0) = false ∧
     (pushHistoryEntry cexSystem entry0).history.length ≤ 50) :=
  ⟨by decide, by decide, by decide, rfl,
    record_truncates_appends_and_caps.1 cexSystem entry0 (by decide) (by decide) (by decide) rfl⟩

/-- C9: `undo()` with the cursor before the first entry and `redo()` with the
cursor at (or past) the last entry are exact no-ops: history, cursor and the
whole document state are unchanged. -/
theorem undo_redo_boundary_noop :
    (∀ (ops : Canvas2D) (s : SystemState), s.historyIndex < 0 → undo ops s = s) ∧
    (∀ (ops : Canvas2D) (s : SystemState),
      (s.history.length : Int) - 1 ≤ s.historyIndex → redo ops s = s) := by
  constructor
  · intro ops s h
    unfold undo
    rw [if_pos h]
  · intro ops s h
    unfold redo
    rw [if_pos h]

theorem undo_redo_boundary_noop_witness :
    (baseSystem.historyIndex < 0 ∧ undo simpleOps baseSystem = baseSystem) ∧
    ((baseSystem.history.length : Int) - 1 ≤ baseSystem.historyIndex ∧
      redo simpleOps baseSystem = baseSystem) :=
  ⟨⟨by decide, undo_redo_boundary_noop.1 simpleOps baseSystem (by decide)⟩,
   ⟨by decide, undo_redo_boundary_noop.2 simpleOps baseSystem (by decide)⟩⟩

/-- C6: for any viewport with zoom in `[0.1, 10]` and any cursor position,
the zoom-to-cursor step of `_onWheel` keeps the document point that was
under the cursor on the same screen pixel under `screen = doc * zoom + pan`. -/
theorem zoom_to_cursor_fixes_point (v : Viewport) (vx vy deltaY : ℚ)
    (h1 : 1 / 10 ≤ v.zoom) (h2 : v.zoom ≤ 10) :
    docToScreen (wheelZoom v vx vy deltaY) (docPointOf v vx vy) = ⟨vx, vy⟩ := by
  have hz : v.zoom ≠ 0 := by
    intro h
    rw [h] at h1
    norm_num at h1
  have key : ∀ nz : ℚ,
      docToScreen ⟨vx - (vx - v.panX) / v.zoom * nz, vy - (vy - v.panY) / v.zoom * nz, nz⟩
        (docPointOf v vx vy) = ⟨vx, vy⟩ := by
    intro nz
    unfold docToScreen docPointOf
    rw [Point.mk.injEq]
    constructor <;> ring
  have keep : docToScreen v (docPointOf v vx vy) = ⟨vx, vy⟩ := by
    unfold docToScreen docPointOf
    rw [Point.mk.injEq]
    constructor <;> field_simp
  unfold wheelZoom
  dsimp only
  split_ifs <;> first
    | exact keep
    | exact key _

theorem zoom_to_cursor_fixes_point_witness :
    (1 / 10 : ℚ) ≤ (Viewport.mk 0 0 1).zoom ∧ (Viewport.mk 0 0 1).zoom ≤ 10 ∧
    docToScreen (wheelZoom (Viewport.mk 0 0 1) 3 4 (-1)) (docPointOf (Viewport.mk 0 0 1) 3 4) =
      ⟨3, 4⟩ :=
  ⟨by norm_num, by norm_num,
    zoom_to_cursor_fixes_point (Viewport.mk 0 0 1) 3 4 (-1) (by norm_num) (by norm_num)⟩

/-- C10: `setLayerOpacity` only rewrites the named layer's opacity field and
never touches the history (so any sequence of calls leaves the history
unchanged); the `opacity` record is appended only by the separate
commit-opacity notification. -/
theorem setLayerOpacity_no_history :
    (∀ (s : SystemState) (id : String) (q : ℚ),
      (setLayerOpacityApp s id q).history = s.history ∧
      (setLayerOpacityApp s id q).historyIndex = s.historyIndex ∧
      (setLayerOpacityApp s id q).historyVersion = s.historyVersion ∧
      (setLayerOpacityApp s id q).state.activeLayerId = s.state.activeLayerId ∧
      (setLayerOpacityApp s id q).float = s.float ∧
      (setLayerOpacityApp s id q).beforeDrawData = s.beforeDrawData ∧
      (setLayerOpacityApp s id q).state.layers =
        (if (s.state.layers.find? (fun l => l.id = id)).isSome
         then s.state.layers.map fun l => if l.id = id then { l with opacity := q } else l
         else s.state.layers)) ∧
    (∀ (s : SystemState) (calls : List (String × ℚ)),
      (calls.foldl (fun t c => setLayerOpacityApp t c.1 c.2) s).history = s.history) ∧
    (∀ (s : SystemState) (layerId : String) (before after : ℚ),
      -1 ≤ s.historyIndex → s.historyIndex < (s.history.length : Int) →
      s.history.length ≤ s.maxHistory → 1 ≤ s.maxHistory →
      (onCommitOpacity s layerId before after).history.get?
        (onCommitOpacity s layerId before after).historyIndex.toNat =
        some (HistoryEntry.opacity layerId before after)) := by
  have hone : ∀ (s : SystemState) (id : String) (q : ℚ),
      (setLayerOpacityApp s id q).history = s.history ∧
      (setLayerOpacityApp s id q).historyIndex = s.historyIndex ∧
      (setLayerOpacityApp s id q).historyVersion = s.historyVersion ∧
      (setLayerOpacityApp s id q).state.activeLayerId = s.state.activeLayerId ∧
      (setLayerOpacityApp s id q).float = s.float ∧
      (setLayerOpacityApp s id q).beforeDrawData = s.beforeDrawData ∧
      (setLayerOpacityApp s id q).state.layers =
        (if (s.state.layers.find? (fun l => l.id = id)).isSome
         then s.state.layers.map fun l => if l.id = id then { l with opacity := q } else l
         else s.state.layers) := by
    intro s id q
    unfold setLayerOpacityApp
    cases hfind : s.state.layers.find? (fun l => l.id = id) <;>
      simp [hfind]
  refine ⟨hone, ?_, ?_⟩
  · intro s calls
    induction calls generalizing s with
    | nil => rfl
    | cons c rest ih =>
      rw [List.foldl_cons, ih, (hone s c.1 c.2).1]
  · intro s layerId before after h1 h2 h3 h4
    exact (pushHistoryEntry_char s (HistoryEntry.opacity layerId before after) h1 h2 h3 h4).2.2.1

theorem setLayerOpacity_no_history_witness :
    ((setLayerOpacityApp baseSystem "A" (1 / 2)).history = baseSystem.history ∧
     (setLayerOpacityApp baseSystem "A" (1 / 2)).state.layers =
       (if (baseSystem.state.layers.find? (fun l => l.id = "A")).isSome
        then baseSystem.state.layers.map fun l =>
          if l.id = "A" then { l with opacity := (1 / 2 : ℚ) } else l
        else baseSystem.state.layers)) ∧
    (-1 : Int) ≤ cexSystem.historyIndex ∧
    (onCommitOpacity cexSystem "A" 1 (1 / 2)).history.get?
      (onCommitOpacity cexSystem "A" 1 (1 / 2)).historyIndex.toNat =
      some (HistoryEntry.opacity "A" 1 (1 / 2)) :=
  ⟨⟨(setLayerOpacity_no_history.1 baseSystem "A" (1 / 2)).1,
    (setLayerOpacity_no_history.1 baseSystem "A" (1 / 2)).2.2.2.2.2.2⟩,
   by decide,
   setLayerOpacity_no_history.2.2 cexSystem "A" 1 (1 / 2)
     (by decide) (by decide) (by decide) (by decide)⟩

theorem map_id_updateFirstLayer (ls : List Layer) (lid : String) (f : Layer → Layer)
    (hf : ∀ l, (f l).id = l.id) :
    (updateFirstLayer ls lid f).map (fun l => l.id) = ls.map (fun l => l.id) := by
  induction ls with
  | nil => rfl
  | cons l rest ih =>
    simp only [updateFirstLayer]
    by_cases h : l.id = lid
    · simp [h, hf l]
    · simp [h, ih]

theorem pushDrawHistory_state (s : SystemState) : (pushDrawHistory s).state = s.state := by
  unfold pushDrawHistory
  split
  · exact (pushHistoryEntry_state _ _).1
  · rfl

theorem clearFloatState_state (s : SystemState) : (clearFloatState s).state = s.state := rfl

theorem commitFloat_ids (ops : Canvas2D) (s : SystemState) :
    (commitFloat ops s).state.layers.map (fun l => l.id) = s.state.layers.map (fun l => l.id) ∧
    (commitFloat ops s).state.activeLayerId = s.state.activeLayerId := by
  unfold commitFloat
  split
  · exact ⟨rfl, rfl⟩
  · split
    · exact ⟨rfl, rfl⟩
    · rw [clearFloatState_state, pushDrawHistory_state]
      exact ⟨map_id_updateFirstLayer _ _ _ (fun l => rfl), rfl⟩

theorem spliceInsert_perm (ls : List Layer) (i : Nat) (x : Layer) :
    List.Perm (spliceInsert ls i x) (x :: ls) := by
  unfold spliceInsert
  rw [List.append_assoc, List.singleton_append]
  simpa [List.take_append_drop] using
    (show List.Perm (ls.take i ++ x :: ls.drop i) (x :: (ls.take i ++ ls.drop i)) from
      List.perm_middle)

theorem perm_cons_eraseIdx (ls : List Layer) (i : Nat) (x : Layer) (h : ls.get? i = some x) :
    List.Perm ls (x :: ls.eraseIdx i) := by
  rw [List.get?_eq_getElem?] at h
  have hi : i < ls.length := by
    by_contra hc
    rw [List.getElem?_eq_none (by omega)] at h
    exact Option.noConfusion h
  have hx : ls[i] = x := by
    rw [List.getElem?_eq_getElem hi] at h
    exact Option.some.inj h
  conv_lhs => rw [← List.take_append_drop i ls, List.drop_eq_getElem_cons hi, hx]
  rw [List.eraseIdx_eq_take_drop_succ]
  exact List.perm_middle

theorem filter_ne_nil_of_nodup (ls : List Layer) (id : String)
    (hlen : 2 ≤ ls.length) (hnd : (ls.map (fun l => l.id)).Nodup) :
    ls.filter (fun l => l.id ≠ id) ≠ [] := by
  match ls, hlen with
  | l0 :: l1 :: rest, _ =>
    intro hnil
    rw [List.filter_eq_nil_iff] at hnil
    have h0 := hnil l0 (by simp)
    have h1 := hnil l1 (by simp)
    simp only [ne_eq, decide_not, Bool.not_eq_true', decide_eq_false_iff_not,
      Decidable.not_not] at h0 h1
    simp only [List.map_cons, List.nodup_cons, List.mem_cons] at hnd
    exact hnd.1 (Or.inl (h0.trans h1.symm))

theorem DocInvariant_pushHistoryEntry (s : SystemState) (e : HistoryEntry) :
    DocInvariant (pushHistoryEntry s e).state ↔ DocInvariant s.state := by
  rw [(pushHistoryEntry_state s e).1]

theorem spliceInsert_ne_nil (ls : List Layer) (i : Nat) (x : Layer) :
    spliceInsert ls i x ≠ [] := by
  intro h
  have hl := (spliceInsert_perm ls i x).length_eq
  rw [h] at hl
  simp at hl

theorem mem_spliceInsert_self (ls : List Layer) (i : Nat) (x : Layer) :
    x ∈ spliceInsert ls i x :=
  (spliceInsert_perm ls i x).mem_iff.mpr (List.mem_cons_self x ls)

/-- C3: every layer operation — add, delete, set-active, reorder, and the
undo/redo layer restorations handled by `_onLayerUndo` — preserves the
document invariant (non-empty layer list, `activeLayerId` a member), and
`deleteLayer` on a single-layer document is an exact no-op (state and
history unchanged). -/
theorem layer_ops_preserve_invariant :
    (∀ (s : SystemState) (newId newName : String),
      DocInvariant s.state → DocInvariant (addLayerApp s newId newName).state) ∧
    (∀ (s : SystemState) (id : String),
      DocInvariant s.state → (s.state.layers.map (fun l => l.id)).Nodup →
      DocInvariant (deleteLayerApp s id).state) ∧
    (∀ (s : SystemState) (id : String),
      s.state.layers.length ≤ 1 → deleteLayerApp s id = s) ∧
    (∀ (ops : Canvas2D) (s : SystemState) (id : String),
      DocInvariant s.state → DocInvariant (setActiveLayerApp ops s id).state) ∧
    (∀ (s : SystemState) (id : String) (n : Nat),
      DocInvariant s.state → DocInvariant (reorderLayerApp s id n).state) ∧
    (∀ (d : DrawingState) (detail : LayerUndoDetail),
      DocInvariant d →
      (∀ f t, detail = LayerUndoDetail.reorder f t → f < d.layers.length) →
      DocInvariant (onLayerUndo d detail)) := by
  refine ⟨?_, ?_, ?_, ?_, ?_, ?_⟩
  · intro s nid nn _hinv
    unfold addLayerApp
    rw [DocInvariant_pushHistoryEntry]
    exact ⟨spliceInsert_ne_nil _ _ _, _, mem_spliceInsert_self _ _ _, rfl⟩
  · intro s id hinv hnd
    unfold deleteLayerApp
    by_cases hlen : s.state.layers.length ≤ 1
    · rw [if_pos hlen]
      exact hinv
    · rw [if_neg hlen]
      rcases hidx : s.state.layers.findIdx? (fun l => l.id = id) with _ | idx
      · simp only [hidx]
        exact hinv
      · simp only [hidx]
        rcases hget : s.state.layers.get? idx with _ | layer
        · simp only [hget]
          exact hinv
        · simp only [hget]
          rw [DocInvariant_pushHistoryEntry]
          have hne := filter_ne_nil_of_nodup s.state.layers id (by omega) hnd
          refine ⟨hne, ?_⟩
          dsimp only
          by_cases hact : s.state.activeLayerId = id
          · rw [if_pos hact]
            have hlen1 : 1 ≤ (s.state.layers.filter (fun l => l.id ≠ id)).length :=
              List.length_pos.mpr hne
            have hlt : min idx ((s.state.layers.filter (fun l => l.id ≠ id)).length - 1) <
                (s.state.layers.filter (fun l => l.id ≠ id)).length := by omega
            rcases hg : (s.state.layers.filter (fun l => l.id ≠ id)).get?
                (min idx ((s.state.layers.filter (fun l => l.id ≠ id)).length - 1)) with _ | l
            · rw [List.get?_eq_getElem?, List.getElem?_eq_getElem hlt] at hg
              exact Option.noConfusion hg
            · simp only [hg]
              rw [List.get?_eq_getElem?] at hg
              exact ⟨l, List.getElem?_mem hg, rfl⟩
          · rw [if_neg hact]
            obtain ⟨l, hmem, hid⟩ := hinv.2
            exact ⟨l, List.mem_filter.mpr ⟨hmem, by simp [hid, hact]⟩, hid⟩
  · intro s id h
    unfold deleteLayerApp
    rw [if_pos h]
  · intro ops s id hinv
    unfold setActiveLayerApp
    split_ifs with hmem
    · obtain ⟨hids, _hact⟩ := commitFloat_ids ops s
      constructor
      · intro hnil
        rw [hnil] at hids
        have h0 : s.state.layers.map (fun l => l.id) = [] := by
          rw [← hids]
          rfl
        exact hinv.1 (List.map_eq_nil_iff.mp h0)
      · rw [List.any_eq_true] at hmem
        obtain ⟨l, hl, hlid⟩ := hmem
        have hidmem : id ∈ s.state.layers.map (fun l => l.id) :=
          List.mem_map.mpr ⟨l, hl, of_decide_eq_true hlid⟩
        rw [← hids] at hidmem
        obtain ⟨l', hl', hl'id⟩ := List.mem_map.mp hidmem
        exact ⟨l', hl', hl'id⟩
    · exact hinv
  · intro s id n hinv
    unfold reorderLayerApp
    rcases hidx : s.state.layers.findIdx? (fun l => l.id = id) with _ | oldIdx
    · simp only [hidx]
      exact hinv
    · simp only [hidx]
      by_cases heq : oldIdx = n
      · rw [if_pos heq]
        exact hinv
      · rw [if_neg heq]
        rcases hget : s.state.layers.get? oldIdx with _ | layer
        · simp only [hget]
          exact hinv
        · simp only [hget]
          rw [DocInvariant_pushHistoryEntry]
          have hperm : List.Perm (spliceInsert (s.state.layers.eraseIdx oldIdx) n layer)
              s.state.layers :=
            (spliceInsert_perm _ _ _).trans (perm_cons_eraseIdx _ _ _ hget).symm
          constructor
          · intro hnil
            have hnil' : spliceInsert (s.state.layers.eraseIdx oldIdx) n layer =
                ([] : List Layer) := hnil
            have hl := hperm.length_eq
            rw [hnil'] at hl
            simp only [List.length_nil] at hl
            exact hinv.1 (List.length_eq_zero.mp hl.symm)
          · obtain ⟨l, hmem, hid⟩ := hinv.2
            exact ⟨l, hperm.mem_iff.mpr hmem, hid⟩
  · intro d detail hinv _hr
    cases detail with
    | removeLayer lid =>
      unfold onLayerUndo
      dsimp only
      by_cases hempty : (d.layers.filter (fun l => l.id ≠ lid)).isEmpty = true
      · rw [if_pos hempty]
        exact hinv
      · rw [if_neg hempty]
        have hne : d.layers.filter (fun l => l.id ≠ lid) ≠ [] := by
          intro hnil
          exact hempty (by rw [hnil]; rfl)
        refine ⟨hne, ?_⟩
        dsimp only
        by_cases hact : d.activeLayerId = lid
        · rw [if_pos hact]
          obtain ⟨la, hla, hlaid⟩ := hinv.2
          rcases hi : d.layers.findIdx? (fun l => l.id = lid) with _ | i
          · rw [List.findIdx?_eq_none_iff] at hi
            have hcontra := hi la hla
            rw [hlaid, hact] at hcontra
            simp at hcontra
          · simp only [hi]
            have hlen1 : 1 ≤ (d.layers.filter (fun l => l.id ≠ lid)).length :=
              List.length_pos.mpr hne
            have hlt : (min (i : Int)
                (((d.layers.filter (fun l => l.id ≠ lid)).length : Int) - 1)).toNat <
                (d.layers.filter (fun l => l.id ≠ lid)).length := by omega
            rcases hg : (d.layers.filter (fun l => l.id ≠ lid)).get?
                (min (i : Int)
                  (((d.layers.filter (fun l => l.id ≠ lid)).length : Int) - 1)).toNat with _ | l
            · rw [List.get?_eq_getElem?, List.getElem?_eq_getElem hlt] at hg
              exact Option.noConfusion hg
            · simp only [hg]
              rw [List.get?_eq_getElem?] at hg
              exact ⟨l, List.getElem?_mem hg, rfl⟩
        · rw [if_neg hact]
          obtain ⟨l, hmem, hid⟩ := hinv.2
          exact ⟨l, List.mem_filter.mpr ⟨hmem, by simp [hid, hact]⟩, hid⟩
    | restoreLayer snap index =>
      unfold onLayerUndo
      exact ⟨spliceInsert_ne_nil _ _ _, _, mem_spliceInsert_self _ _ _, rfl⟩
    | reorder f t =>
      unfold onLayerUndo
      rcases hget : d.layers.get? f with _ | moved
      · simp only [hget]
        exact hinv
      · simp only [hget]
        have hperm : List.Perm (spliceInsert (d.layers.eraseIdx f) t moved) d.layers :=
          (spliceInsert_perm _ _ _).trans (perm_cons_eraseIdx _ _ _ hget).symm
        constructor
        · intro hnil
          have hnil' : spliceInsert (d.layers.eraseIdx f) t moved = ([] : List Layer) := hnil
          have hl := hperm.length_eq
          rw [hnil'] at hl
          simp only [List.length_nil] at hl
          exact hinv.1 (List.length_eq_zero.mp hl.symm)
        · obtain ⟨l, hmem, hid⟩ := hinv.2
          exact ⟨l, hperm.mem_iff.mpr hmem, hid⟩
    | refresh => exact hinv

theorem layer_ops_preserve_invariant_witness :
    DocInvariant baseSystem.state ∧
    (baseSystem.state.layers.map (fun l => l.id)).Nodup ∧
    DocInvariant (addLayerApp baseSystem "C" "Layer 3").state ∧
    DocInvariant (deleteLayerApp baseSystem "B").state ∧
    singleSystem.state.layers.length ≤ 1 ∧
    deleteLayerApp singleSystem "A" = singleSystem ∧
    DocInvariant (setActiveLayerApp simpleOps baseSystem "B").state ∧
    DocInvariant (reorderLayerApp baseSystem "A" 1).state ∧
    DocInvariant (onLayerUndo baseSystem.state (LayerUndoDetail.removeLayer "B")) :=
  ⟨by decide, by decide,
   layer_ops_preserve_invariant.1 baseSystem "C" "Layer 3" (by decide),
   layer_ops_preserve_invariant.2.1 baseSystem "B" (by decide) (by decide),
   by decide,
   layer_ops_preserve_invariant.2.2.1 singleSystem "A" (by decide),
   layer_ops_preserve_invariant.2.2.2.1 simpleOps baseSystem "B" (by decide),
   layer_ops_preserve_invariant.2.2.2.2.1 baseSystem "A" 1 (by decide),
   layer_ops_preserve_invariant.2.2.2.2.2 baseSystem.state (LayerUndoDetail.removeLayer "B")
     (by decide) (fun f t h => nomatch h)⟩

theorem commitFloat_none (ops : Canvas2D) (s : SystemState) (h : s.float = none) :
    commitFloat ops s = s := by
  unfold commitFloat
  simp only [h]

theorem put_put_cancel (C before after : ImageData) (hC : C = after)
    (hwf : after.WF) (hwfb : before.WF)
    (hw : before.width = after.width) (hh : before.height = after.height) :
    (C.putImageDataAt0 before).putImageDataAt0 after = C := by
  subst hC
  rw [ImageData.putImageDataAt0_of_cover C before hw hh hwfb]
  exact ImageData.putImageDataAt0_of_cover before C hw.symm hh.symm hwf

/-- C1: for an applied `draw` record (the named layer currently shows the
record's `after` surface) in a document with no active floating selection,
`undo()` then `redo()` returns the entire system state — in particular that
layer's pixel surface — bit-identically to before the pair ran. -/
theorem draw_undo_redo_roundtrip (ops : Canvas2D) (s : SystemState)
    (lid : String) (before after : ImageData) (L : Layer)
    (hfloat : s.float = none)
    (hidx : s.history.get? s.historyIndex.toNat = some (HistoryEntry.draw lid before after))
    (hge : 0 ≤ s.historyIndex) (hlt : s.historyIndex < (s.history.length : Int))
    (hfind : s.state.layers.find? (fun l => l.id = lid) = some L)
    (happlied : L.canvas = after)
    (hwf : after.WF) (hwfb : before.WF)
    (hw : before.width = after.width) (hh : before.height = after.height) :
    redo ops (undo ops s) = s := by
  obtain ⟨⟨lys, act, dw, dh⟩, hist, hIdx, maxh, ver, fl, fsc, bdd⟩ := s
  dsimp only at hfloat hidx hge hlt hfind
  subst hfloat
  unfold undo
  rw [if_neg (by omega : ¬ hIdx < 0)]
  rw [commitFloat_none _ _ rfl]
  simp only [hidx]
  unfold applyUndo
  dsimp only
  unfold redo
  rw [if_neg (by dsimp only; omega)]
  rw [commitFloat_none _ _ rfl]
  dsimp only
  have hswap : hIdx - 1 + 1 = hIdx := by omega
  simp only [hswap, hidx]
  unfold applyRedo
  dsimp only
  rw [updateFirstLayer_comp lys lid
        (fun l => { l with canvas := l.canvas.putImageDataAt0 before })
        (fun l => { l with canvas := l.canvas.putImageDataAt0 after })
        (fun l => rfl)]
  rw [updateFirstLayer_eq_self]
  intro l hl
  rw [hfind] at hl
  cases Option.some.inj hl
  show { L with canvas := (L.canvas.putImageDataAt0 before).putImageDataAt0 after } = L
  rw [put_put_cancel L.canvas before after happlied hwf hwfb hw hh]

theorem draw_undo_redo_roundtrip_witness :
    cexSystem.float = none ∧
    cexSystem.history.get? cexSystem.historyIndex.toNat =
      some (HistoryEntry.draw "B" ⟨2, 2, [0, 0, 0, 0]⟩ ⟨2, 2, [5, 6, 7, 8]⟩) ∧
    (0 : Int) ≤ cexSystem.historyIndex ∧
    cexSystem.historyIndex < (cexSystem.history.length : Int) ∧
    cexSystem.state.layers.find? (fun l => l.id = "B") = some layerB ∧
    layerB.canvas = (⟨2, 2, [5, 6, 7, 8]⟩ : ImageData) ∧
    redo simpleOps (undo simpleOps cexSystem) = cexSystem :=
  ⟨rfl, by decide, by decide, by decide, by decide, by decide,
    draw_undo_redo_roundtrip simpleOps cexSystem "B"
      ⟨2, 2, [0, 0, 0, 0]⟩ ⟨2, 2, [5, 6, 7, 8]⟩ layerB
      rfl (by decide) (by decide) (by decide) (by decide) (by decide)
      (by decide) (by decide) (by decide) (by decide)⟩

/-- C7: `lift(rect)` followed immediately by `deleteSelection()` (discard)
finalizes a `draw` record whose `before` is the pre-lift surface and whose
`after` has the rect cleared; `undo()` then restores the layer's original
pixels exactly, and `redo()` re-clears them. -/
theorem lift_discard_undo_restores (ops : Canvas2D) (s : SystemState)
    (x y w h : Nat) (L : Layer)
    (hfloat : s.float = none) (hbdd : s.beforeDrawData = none)
    (hfind : s.state.layers.find? (fun l => l.id = s.state.activeLayerId) = some L)
    (hwfL : L.canvas.WF)
    (hdw : L.canvas.width = s.state.documentWidth)
    (hdh : L.canvas.height = s.state.documentHeight)
    (hge : -1 ≤ s.historyIndex) (hlt : s.historyIndex < (s.history.length : Int))
    (hcap : s.history.length ≤ s.maxHistory) (hmax : 1 ≤ s.maxHistory)
    (_hbx : x + w ≤ s.state.documentWidth) (_hby : y + h ≤ s.state.documentHeight) :
    (deleteSelection (liftToFloat ops s x y w h)).history.get?
        (deleteSelection (liftToFloat ops s x y w h)).historyIndex.toNat =
      some (HistoryEntry.draw s.state.activeLayerId L.canvas (L.canvas.clearRect x y w h)) ∧
    (undo ops (deleteSelection (liftToFloat ops s x y w h))).state.layers = s.state.layers ∧
    (redo ops (undo ops (deleteSelection (liftToFloat ops s x y w h)))).state.layers.find?
        (fun l => l.id = s.state.activeLayerId) =
      some { L with canvas := L.canvas.clearRect x y w h } := by
  obtain ⟨⟨lys, act, dw, dh⟩, hist, hIdx, maxh, ver, fl, fsc, bdd⟩ := s
  dsimp only at hfloat hbdd hfind hdw hdh hge hlt hcap hmax _hbx _hby ⊢
  subst hfloat
  subst hbdd
  have hC : L.canvas.getSubRect 0 0 dw dh = L.canvas := by
    rw [← hdw, ← hdh]
    exact ImageData.getSubRect_zero _ hwfL
  have hA : (L.canvas.clearRect x y w h).getSubRect 0 0 dw dh =
      L.canvas.clearRect x y w h := by
    rw [← hdw, ← hdh]
    exact ImageData.getSubRect_zero _ (ImageData.clearRect_WF _ _ _ _ _)
  set X : SystemState :=
    ⟨⟨updateFirstLayer lys act (fun l => { l with canvas := l.canvas.clearRect x y w h }),
      act, dw, dh⟩, hist, hIdx, maxh, ver,
      some ⟨L.canvas.getSubRect x y w h, ⟨(x : ℚ), (y : ℚ), (w : ℚ), (h : ℚ)⟩,
        ops.drawImageAt (ImageData.blank w h)
          (ImageData.putImageDataAt0 (ImageData.blank w h) (L.canvas.getSubRect x y w h)) 0 0⟩,
      some (ImageData.putImageDataAt0 (ImageData.blank w h) (L.canvas.getSubRect x y w h)),
      some L.canvas⟩ with hX
  set E : HistoryEntry :=
    HistoryEntry.draw act L.canvas (L.canvas.clearRect x y w h) with hE
  have hkey : deleteSelection
      (liftToFloat ops ⟨⟨lys, act, dw, dh⟩, hist, hIdx, maxh, ver, none, fsc, none⟩ x y w h) =
      { pushHistoryEntry X E with float := none, floatSrcCanvas := none, beforeDrawData := none } := by
    unfold liftToFloat deleteSelection pushDrawHistory captureBeforeDraw clearFloatState
      findActiveLayer
    simp only [hfind]
    rw [find?_updateFirstLayer lys act
      (fun l => { l with canvas := l.canvas.clearRect x y w h }) (fun l => rfl)]
    simp only [hfind, Option.map_some']
    simp only [hC, hA, hX, hE]
  obtain ⟨hH, hI, hG, hL⟩ := pushHistoryEntry_char X E hge hlt hcap hmax
  have hpos : 0 ≤ (pushHistoryEntry X E).historyIndex := by
    rcases h0 : (pushHistoryEntry X E).history with _ | ⟨a, rest⟩
    · rw [h0] at hG
      simp at hG
    · rw [hI, h0]
      simp only [List.length_cons]
      omega
  have hundo : undo ops (deleteSelection
      (liftToFloat ops ⟨⟨lys, act, dw, dh⟩, hist, hIdx, maxh, ver, none, fsc, none⟩ x y w h)) =
      ⟨⟨lys, act, dw, dh⟩, (pushHistoryEntry X E).history,
        (pushHistoryEntry X E).historyIndex - 1, (pushHistoryEntry X E).maxHistory,
        (pushHistoryEntry X E).historyVersion, none, none, none⟩ := by
    rw [hkey]
    unfold undo
    rw [if_neg (by dsimp only; omega)]
    rw [commitFloat_none _ _ rfl]
    dsimp only
    simp only [hG]
    unfold applyUndo
    dsimp only
    rw [(pushHistoryEntry_state X E).1]
    dsimp only [hX]
    rw [updateFirstLayer_comp lys act
          (fun l => { l with canvas := l.canvas.clearRect x y w h })
          (fun l => { l with canvas := l.canvas.putImageDataAt0 L.canvas })
          (fun l => rfl)]
    rw [updateFirstLayer_eq_self]
    intro l hl
    rw [hfind] at hl
    cases Option.some.inj hl
    show { L with canvas := (L.canvas.clearRect x y w h).putImageDataAt0 L.canvas } = L
    rw [ImageData.putImageDataAt0_of_cover _ _ (ImageData.clearRect_width _ _ _ _ _).symm
      (ImageData.clearRect_height _ _ _ _ _).symm hwfL]
  refine ⟨?_, ?_, ?_⟩
  · rw [hkey]
    exact hG
  · rw [hundo]
  · rw [hundo]
    unfold redo
    rw [if_neg (by dsimp only; omega)]
    rw [commitFloat_none _ _ rfl]
    dsimp only
    have hswap : (pushHistoryEntry X E).historyIndex - 1 + 1 =
        (pushHistoryEntry X E).historyIndex := by omega
    simp only [hswap, hG]
    unfold applyRedo
    dsimp only
    rw [find?_updateFirstLayer lys act
      (fun l => { l with canvas := l.canvas.putImageDataAt0 (L.canvas.clearRect x y w h) })
      (fun l => rfl)]
    rw [hfind, Option.map_some']
    rw [show L.canvas.putImageDataAt0 (L.canvas.clearRect x y w h) =
        L.canvas.clearRect x y w h from
      ImageData.putImageDataAt0_of_cover _ _ (ImageData.clearRect_width _ _ _ _ _)
        (ImageData.clearRect_height _ _ _ _ _) (ImageData.clearRect_WF _ _ _ _ _)]

theorem lift_discard_undo_restores_witness :
    baseSystem.float = none ∧ baseSystem.beforeDrawData = none ∧
    baseSystem.state.layers.find? (fun l => l.id = baseSystem.state.activeLayerId) =
      some layerA ∧
    layerA.canvas.WF ∧
    ((deleteSelection (liftToFloat simpleOps baseSystem 0 0 1 1)).history.get?
        (deleteSelection (liftToFloat simpleOps baseSystem 0 0 1 1)).historyIndex.toNat =
      some (HistoryEntry.draw baseSystem.state.activeLayerId layerA.canvas
        (layerA.canvas.clearRect 0 0 1 1)) ∧
     (undo simpleOps (deleteSelection (liftToFloat simpleOps baseSystem 0 0 1 1))).state.layers =
       baseSystem.state.layers ∧
     (redo simpleOps (undo simpleOps
         (deleteSelection (liftToFloat simpleOps baseSystem 0 0 1 1)))).state.layers.find?
        (fun l => l.id = baseSystem.state.activeLayerId) =
      some { layerA with canvas := layerA.canvas.clearRect 0 0 1 1 }) :=
  ⟨rfl, rfl, by decide, by decide,
    lift_discard_undo_restores simpleOps baseSystem 0 0 1 1 layerA rfl rfl (by decide)
      (by decide) (by decide) (by decide) (by decide) (by decide) (by decide) (by decide)
      (by decide) (by decide)⟩

/-- C5 counterexample: the record being undone carries `layerId` `B`, the
undo succeeds, yet the active layer stays `A` — the code never switches the
active layer when undoing a `draw` record. -/
theorem undo_active_layer_cex :
    cexSystem.history.get? cexSystem.historyIndex.toNat =
      some (HistoryEntry.draw "B" ⟨2, 2, [0, 0, 0, 0]⟩ ⟨2, 2, [5, 6, 7, 8]⟩) ∧
    canUndo cexSystem = true ∧
    (undo simpleOps cexSystem).state.activeLayerId = "A" ∧
    ("A" : String) ≠ "B" := by decide

/-- C5 amended: undoing or redoing a `draw`, `visibility`, `opacity`,
`rename` or `reorder` entry leaves the active layer unchanged; undoing a
`delete-layer` entry (or redoing an `add-layer` entry) switches the active
layer to the snapshot's layer; undoing an `add-layer` entry (or redoing a
`delete-layer` entry) leaves the active layer unchanged whenever the removed
layer was not active. -/
theorem undo_redo_active_layer_amended (ops : Canvas2D) (s : SystemState)
    (hfloat : s.float = none) :
    (∀ lid b a, 0 ≤ s.historyIndex →
      s.history.get? s.historyIndex.toNat = some (HistoryEntry.draw lid b a) →
      (undo ops s).state.activeLayerId = s.state.activeLayerId) ∧
    (∀ lid b a, 0 ≤ s.historyIndex →
      s.history.get? s.historyIndex.toNat = some (HistoryEntry.visibility lid b a) →
      (undo ops s).state.activeLayerId = s.state.activeLayerId) ∧
    (∀ lid b a, 0 ≤ s.historyIndex →
      s.history.get? s.historyIndex.toNat = some (HistoryEntry.opacity lid b a) →
      (undo ops s).state.activeLayerId = s.state.activeLayerId) ∧
    (∀ lid b a, 0 ≤ s.historyIndex →
      s.history.get? s.historyIndex.toNat = some (HistoryEntry.rename lid b a) →
      (undo ops s).state.activeLayerId = s.state.activeLayerId) ∧
    (∀ f t, 0 ≤ s.historyIndex →
      s.history.get? s.historyIndex.toNat = some (HistoryEntry.reorder f t) →
      (undo ops s).state.activeLayerId = s.state.activeLayerId) ∧
    (∀ snap i, 0 ≤ s.historyIndex →
      s.history.get? s.historyIndex.toNat = some (HistoryEntry.deleteLayer snap i) →
      (undo ops s).state.activeLayerId = snap.id) ∧
    (∀ snap i, 0 ≤ s.historyIndex →
      s.history.get? s.historyIndex.toNat = some (HistoryEntry.addLayer snap i) →
      s.state.activeLayerId ≠ snap.id →
      (undo ops s).state.activeLayerId = s.state.activeLayerId) ∧
    (∀ lid b a, s.historyIndex < (s.history.length : Int) - 1 →
      s.history.get? (s.historyIndex + 1).toNat = some (HistoryEntry.draw lid b a) →
      (redo ops s).state.activeLayerId = s.state.activeLayerId) ∧
    (∀ lid b a, s.historyIndex < (s.history.length : Int) - 1 →
      s.history.get? (s.historyIndex + 1).toNat = some (HistoryEntry.visibility lid b a) →
      (redo ops s).state.activeLayerId = s.state.activeLayerId) ∧
    (∀ lid b a, s.historyIndex < (s.history.length : Int) - 1 →
      s.history.get? (s.historyIndex + 1).toNat = some (HistoryEntry.opacity lid b a) →
      (redo ops s).state.activeLayerId = s.state.activeLayerId) ∧
    (∀ lid b a, s.historyIndex < (s.history.length : Int) - 1 →
      s.history.get? (s.historyIndex + 1).toNat = some (HistoryEntry.rename lid b a) →
      (redo ops s).state.activeLayerId = s.state.activeLayerId) ∧
    (∀ f t, s.historyIndex < (s.history.length : Int) - 1 →
      s.history.get? (s.historyIndex + 1).toNat = some (HistoryEntry.reorder f t) →
      (redo ops s).state.activeLayerId = s.state.activeLayerId) ∧
    (∀ snap i, s.historyIndex < (s.history.length : Int) - 1 →
      s.history.get? (s.historyIndex + 1).toNat = some (HistoryEntry.addLayer snap i) →
      (redo ops s).state.activeLayerId = snap.id) ∧
    (∀ snap i, s.historyIndex < (s.history.length : Int) - 1 →
      s.history.get? (s.historyIndex + 1).toNat = some (HistoryEntry.deleteLayer snap i) →
      s.state.activeLayerId ≠ snap.id →
      (redo ops s).state.activeLayerId = s.state.activeLayerId) := by
  have hu : ∀ e, 0 ≤ s.historyIndex →
      s.history.get? s.historyIndex.toNat = some e →
      undo ops s = applyUndo { s with historyIndex := s.historyIndex - 1 } e := by
    intro e h1 h2
    unfold undo
    rw [if_neg (by omega)]
    rw [commitFloat_none ops s hfloat]
    simp only [h2]
  have hr : ∀ e, s.historyIndex < (s.history.length : Int) - 1 →
      s.history.get? (s.historyIndex + 1).toNat = some e →
      redo ops s = applyRedo { s with historyIndex := s.historyIndex + 1 } e := by
    intro e h1 h2
    unfold redo
    rw [if_neg (by omega)]
    rw [commitFloat_none ops s hfloat]
    dsimp only
    simp only [h2]
  have hremove : ∀ (s' : SystemState) (lid : String),
      s'.state.activeLayerId ≠ lid →
      (onLayerUndo s'.state (LayerUndoDetail.removeLayer lid)).activeLayerId =
        s'.state.activeLayerId := by
    intro s' lid hne
    unfold onLayerUndo
    dsimp only
    by_cases hempty : (s'.state.layers.filter (fun l => l.id ≠ lid)).isEmpty = true
    · rw [if_pos hempty]
    · rw [if_neg hempty]
      dsimp only
      rw [if_neg hne]
  have hreorder : ∀ (s' : SystemState) (f t : Nat),
      (onLayerUndo s'.state (LayerUndoDetail.reorder f t)).activeLayerId =
        s'.state.activeLayerId := by
    intro s' f t
    unfold onLayerUndo
    rcases hg : s'.state.layers.get? f with _ | moved <;> simp only [hg]
  refine ⟨?_, ?_, ?_, ?_, ?_, ?_, ?_, ?_, ?_, ?_, ?_, ?_, ?_, ?_⟩
  · intro lid b a h1 h2
    rw [hu _ h1 h2]
    rfl
  · intro lid b a h1 h2
    rw [hu _ h1 h2]
    rfl
  · intro lid b a h1 h2
    rw [hu _ h1 h2]
    rfl
  · intro lid b a h1 h2
    rw [hu _ h1 h2]
    rfl
  · intro f t h1 h2
    rw [hu _ h1 h2]
    exact hreorder { s with historyIndex := s.historyIndex - 1 } t f
  · intro snap i h1 h2
    rw [hu _ h1 h2]
    rfl
  · intro snap i h1 h2 hne
    rw [hu _ h1 h2]
    exact hremove { s with historyIndex := s.historyIndex - 1 } snap.id hne
  · intro lid b a h1 h2
    rw [hr _ h1 h2]
    rfl
  · intro lid b a h1 h2
    rw [hr _ h1 h2]
    rfl
  · intro lid b a h1 h2
    rw [hr _ h1 h2]
    rfl
  · intro lid b a h1 h2
    rw [hr _ h1 h2]
    rfl
  · intro f t h1 h2
    rw [hr _ h1 h2]
    exact hreorder { s with historyIndex := s.historyIndex + 1 } f t
  · intro snap i h1 h2
    rw [hr _ h1 h2]
    rfl
  · intro snap i h1 h2 hne
    rw [hr _ h1 h2]
    exact hremove { s with historyIndex := s.historyIndex + 1 } snap.id hne

theorem undo_redo_active_layer_amended_witness :
    cexSystem.float = none ∧
    (0 : Int) ≤ cexSystem.historyIndex ∧
    cexSystem.history.get? cexSystem.historyIndex.toNat =
      some (HistoryEntry.draw "B" ⟨2, 2, [0, 0, 0, 0]⟩ ⟨2, 2, [5, 6, 7, 8]⟩) ∧
    (undo simpleOps cexSystem).state.activeLayerId = cexSystem.state.activeLayerId :=
  ⟨rfl, by decide, by decide,
    (undo_redo_active_layer_amended simpleOps cexSystem rfl).1 "B"
      ⟨2, 2, [0, 0, 0, 0]⟩ ⟨2, 2, [5, 6, 7, 8]⟩ (by decide) (by decide)⟩

theorem foldl_resize_temp (ops : Canvas2D) (src : ImageData) :
    ∀ (evs : List (ℚ × ResizeHandle × Rect × Point × Point)) (fl : FloatingSelection),
      evs ≠ [] →
      (evs.foldl (resizeStep ops src) fl).tempCanvas =
        ops.drawImageScaled src
          (max 1 (jsRound (evs.foldl (resizeStep ops src) fl).currentRect.w)).toNat
          (max 1 (jsRound (evs.foldl (resizeStep ops src) fl).currentRect.h)).toNat := by
  intro evs
  induction evs with
  | nil =>
    intro fl hne
    exact absurd rfl hne
  | cons e rest ih =>
    intro fl _
    rw [List.foldl_cons]
    by_cases hrest : rest = []
    · subst hrest
      simp only [List.foldl_nil]
      rfl
    · exact ih (resizeStep ops src fl e) hrest

/-- C4: after any non-empty sequence of resize steps, the render buffer is
the platform resample of the immutable source canvas at the final rect's
rounded size — never derived from a previous render buffer; consequently,
when the final rect rounds back to the original size and the resampler is
exact at identity scale (`drawImage` 1:1), the buffer is bit-identical to
`originalImageData`.  The last conjunct shows the source canvas built at
lift time (`putImageData` of the lifted pixels onto a blank canvas of the
same size) is the lifted pixels, exactly. -/
theorem resize_rederives_from_original (ops : Canvas2D) (src : ImageData)
    (fl : FloatingSelection) :
    (∀ (evs : List (ℚ × ResizeHandle × Rect × Point × Point)), evs ≠ [] →
      (evs.foldl (resizeStep ops src) fl).tempCanvas =
        ops.drawImageScaled src
          (max 1 (jsRound (evs.foldl (resizeStep ops src) fl).currentRect.w)).toNat
          (max 1 (jsRound (evs.foldl (resizeStep ops src) fl).currentRect.h)).toNat) ∧
    (∀ (evs : List (ℚ × ResizeHandle × Rect × Point × Point)), evs ≠ [] →
      src = fl.originalImageData →
      ops.drawImageScaled fl.originalImageData fl.originalImageData.width
        fl.originalImageData.height = fl.originalImageData →
      (max 1 (jsRound (evs.foldl (resizeStep ops src) fl).currentRect.w)).toNat =
        fl.originalImageData.width →
      (max 1 (jsRound (evs.foldl (resizeStep ops src) fl).currentRect.h)).toNat =
        fl.originalImageData.height →
      (evs.foldl (resizeStep ops src) fl).tempCanvas = fl.originalImageData) ∧
    (∀ (img : ImageData) (w h : Nat), img.width = w → img.height = h → img.WF →
      ImageData.putImageDataAt0 (ImageData.blank w h) img = img) := by
  refine ⟨fun evs hne => foldl_resize_temp ops src evs fl hne, ?_, ?_⟩
  · intro evs hne hsrc hid hw hh
    rw [foldl_resize_temp ops src evs fl hne, hw, hh, hsrc, hid]
  · intro img w h hw hh hwf
    exact ImageData.putImageDataAt0_of_cover _ _ (by rw [hw]; rfl) (by rw [hh]; rfl) hwf

theorem resize_rederives_from_original_witness :
    (([((8 : ℚ), ResizeHandle.se, Rect.mk 0 0 1 1, Point.mk 1 1, Point.mk 2 2),
       ((8 : ℚ), ResizeHandle.se, Rect.mk 0 0 2 2, Point.mk 2 2, Point.mk 1 2)] :
      List (ℚ × ResizeHandle × Rect × Point × Point)) ≠ []) ∧
    nnScale (ImageData.mk 1 1 [9]) (ImageData.mk 1 1 [9]).width
      (ImageData.mk 1 1 [9]).height = ImageData.mk 1 1 [9] ∧
    ([((8 : ℚ), ResizeHandle.se, Rect.mk 0 0 1 1, Point.mk 1 1, Point.mk 2 2),
      ((8 : ℚ), ResizeHandle.se, Rect.mk 0 0 2 2, Point.mk 2 2, Point.mk 1 2)].foldl
        (resizeStep simpleOps (ImageData.mk 1 1 [9]))
        (FloatingSelection.mk (ImageData.mk 1 1 [9]) (Rect.mk 0 0 1 1)
          (ImageData.mk 1 1 [9]))).tempCanvas = ImageData.mk 1 1 [9] :=
  ⟨by simp, by decide,
    (resize_rederives_from_original simpleOps (ImageData.mk 1 1 [9])
        (FloatingSelection.mk (ImageData.mk 1 1 [9]) (Rect.mk 0 0 1 1)
          (ImageData.mk 1 1 [9]))).2.1
      [((8 : ℚ), ResizeHandle.se, Rect.mk 0 0 1 1, Point.mk 1 1, Point.mk 2 2),
       ((8 : ℚ), ResizeHandle.se, Rect.mk 0 0 2 2, Point.mk 2 2, Point.mk 1 2)]
      (by simp) rfl (by decide)
      (by norm_num [resizeStep, applyResize, rebuildTempCanvas, resizeRect, jsRound,
            inLeft, inRight, inTop, inBottom, isCorner])
      (by norm_num [resizeStep, applyResize, rebuildTempCanvas, resizeRect, jsRound,
            inLeft, inRight, inTop, inBottom, isCorner])⟩

theorem le_floorClamp (m a : ℚ) : m ≤ if a < m then m else a := by
  split_ifs with h
  · exact le_refl m
  · exact le_of_not_lt h

theorem floorClamp_eq_max (m a : ℚ) : (if a < m then m else a) = max m a := by
  split_ifs with h
  · exact (max_eq_left h.le).symm
  · exact (max_eq_right (le_of_not_lt h)).symm

theorem floorClamp_eq_self (m a : ℚ) (h : m < if a < m then m else a) :
    (if a < m then m else a) = a := by
  split_ifs at h ⊢ with h2
  · exact absurd h (lt_irrefl m)
  · rfl

/-- The minimum-size floor bounds both dimensions for every handle. -/
theorem resizeRect_min_floor (zoom : ℚ) (handle : ResizeHandle) (orig : Rect)
    (start p : Point) :
    4 / zoom ≤ (resizeRect zoom handle orig start p).w ∧
    4 / zoom ≤ (resizeRect zoom handle orig start p).h := by
  unfold resizeRect
  exact ⟨le_floorClamp _ _, le_floorClamp _ _⟩

theorem aspect_pair (ow oh w1 h1 : ℚ) (hw : 0 < ow) (hh : 0 < oh) (c : Prop) [Decidable c] :
    (if c then w1 else h1 * (ow / oh)) * oh = (if c then w1 / (ow / oh) else h1) * ow := by
  split_ifs with hd
  · field_simp
  · field_simp

theorem flipFloor_ratio (ow oh m w2 h2 : ℚ) (hw : 0 < ow) (hh : 0 < oh)
    (hr : w2 * oh = h2 * ow)
    (hfw : m < if (if w2 < 0 then -w2 else w2) < m then m else if w2 < 0 then -w2 else w2)
    (hfh : m < if (if h2 < 0 then -h2 else h2) < m then m else if h2 < 0 then -h2 else h2) :
    (if (if w2 < 0 then -w2 else w2) < m then m else if w2 < 0 then -w2 else w2) * oh =
      (if (if h2 < 0 then -h2 else h2) < m then m else if h2 < 0 then -h2 else h2) * ow := by
  rw [floorClamp_eq_self _ _ hfw, floorClamp_eq_self _ _ hfh]
  by_cases hw2 : w2 < 0 <;> by_cases hh2 : h2 < 0
  · rw [if_pos hw2, if_pos hh2]
    linear_combination -hr
  · exfalso
    have hn := mul_neg_of_neg_of_pos hw2 hh
    have hp := mul_nonneg (not_lt.mp hh2) hw.le
    linarith
  · exfalso
    have hn := mul_neg_of_neg_of_pos hh2 hw
    have hp := mul_nonneg (not_lt.mp hw2) hh.le
    linarith
  · rw [if_neg hw2, if_neg hh2]
    exact hr

set_option maxHeartbeats 1000000 in
/-- C8: the `_applyResize` geometry.  For every handle the result is floored
at `4 / zoom` in both dimensions (never negative); corner handles keep the
original aspect ratio whenever the floor is not hit; corner drags keep the
opposite corner fixed; edge handles change only the dragged axis; a drag
past the opposite edge flips the rect instead of leaving a negative size;
and for a south-east drag the dominant axis is the one with the larger
relative delta. -/
theorem applyResize_geometry (zoom : ℚ) (orig : Rect) (start p : Point)
    (hz : 0 < zoom) (hw : 0 < orig.w) (hh : 0 < orig.h) :
    (∀ handle, 4 / zoom ≤ (resizeRect zoom handle orig start p).w ∧
      4 / zoom ≤ (resizeRect zoom handle orig start p).h) ∧
    (∀ handle, isCorner handle = true →
      4 / zoom < (resizeRect zoom handle orig start p).w →
      4 / zoom < (resizeRect zoom handle orig start p).h →
      (resizeRect zoom handle orig start p).w * orig.h =
        (resizeRect zoom handle orig start p).h * orig.w) ∧
    (0 ≤ p.x - start.x → 0 ≤ p.y - start.y →
      (resizeRect zoom ResizeHandle.se orig start p).x = orig.x ∧
      (resizeRect zoom ResizeHandle.se orig start p).y = orig.y) ∧
    (p.x - start.x ≤ 0 → p.y - start.y ≤ 0 →
      (4 / zoom < (resizeRect zoom ResizeHandle.nw orig start p).w →
        (resizeRect zoom ResizeHandle.nw orig start p).x +
          (resizeRect zoom ResizeHandle.nw orig start p).w = orig.x + orig.w) ∧
      (4 / zoom < (resizeRect zoom ResizeHandle.nw orig start p).h →
        (resizeRect zoom ResizeHandle.nw orig start p).y +
          (resizeRect zoom ResizeHandle.nw orig start p).h = orig.y + orig.h)) ∧
    (0 ≤ p.x - start.x → p.y - start.y ≤ 0 →
      (resizeRect zoom ResizeHandle.ne orig start p).x = orig.x ∧
      (4 / zoom < (resizeRect zoom ResizeHandle.ne orig start p).h →
        (resizeRect zoom ResizeHandle.ne orig start p).y +
          (resizeRect zoom ResizeHandle.ne orig start p).h = orig.y + orig.h)) ∧
    (p.x - start.x ≤ 0 → 0 ≤ p.y - start.y →
      (resizeRect zoom ResizeHandle.sw orig start p).y = orig.y ∧
      (4 / zoom < (resizeRect zoom ResizeHandle.sw orig start p).w →
        (resizeRect zoom ResizeHandle.sw orig start p).x +
          (resizeRect zoom ResizeHandle.sw orig start p).w = orig.x + orig.w)) ∧
    (4 / zoom ≤ orig.h →
      (resizeRect zoom ResizeHandle.e orig start p).y = orig.y ∧
      (resizeRect zoom ResizeHandle.e orig start p).h = orig.h ∧
      (resizeRect zoom ResizeHandle.w orig start p).y = orig.y ∧
      (resizeRect zoom ResizeHandle.w orig start p).h = orig.h) ∧
    (4 / zoom ≤ orig.w →
      (resizeRect zoom ResizeHandle.n orig start p).x = orig.x ∧
      (resizeRect zoom ResizeHandle.n orig start p).w = orig.w ∧
      (resizeRect zoom ResizeHandle.s orig start p).x = orig.x ∧
      (resizeRect zoom ResizeHandle.s orig start p).w = orig.w) ∧
    (orig.w + (p.x - start.x) < 0 →
      (resizeRect zoom ResizeHandle.e orig start p).x =
        orig.x + (orig.w + (p.x - start.x)) ∧
      (resizeRect zoom ResizeHandle.e orig start p).w =
        max (4 / zoom) (-(orig.w + (p.x - start.x)))) ∧
    (0 ≤ p.x - start.x → 0 ≤ p.y - start.y →
      (|p.x - start.x| / orig.w > |p.y - start.y| / orig.h →
        4 / zoom < (resizeRect zoom ResizeHandle.se orig start p).w →
        4 / zoom < (resizeRect zoom ResizeHandle.se orig start p).h →
        (resizeRect zoom ResizeHandle.se orig start p).w = orig.w + (p.x - start.x) ∧
        (resizeRect zoom ResizeHandle.se orig start p).h =
          (orig.w + (p.x - start.x)) * orig.h / orig.w) ∧
      (¬(|p.x - start.x| / orig.w > |p.y - start.y| / orig.h) →
        4 / zoom < (resizeRect zoom ResizeHandle.se orig start p).w →
        4 / zoom < (resizeRect zoom ResizeHandle.se orig start p).h →
        (resizeRect zoom ResizeHandle.se orig start p).h = orig.h + (p.y - start.y) ∧
        (resizeRect zoom ResizeHandle.se orig start p).w =
          (orig.h + (p.y - start.y)) * orig.w / orig.h)) := by
  refine ⟨fun handle => resizeRect_min_floor zoom handle orig start p,
    ?_, ?_, ?_, ?_, ?_, ?_, ?_, ?_, ?_⟩
  · intro handle hc hfw hfh
    cases handle
    case nw =>
      simp +decide only [resizeRect, inLeft, inRight, inTop, inBottom, isCorner,
        Bool.false_eq_true, if_false, if_true] at hfw hfh ⊢
      exact flipFloor_ratio orig.w orig.h (4 / zoom) _ _ hw hh
        (aspect_pair orig.w orig.h _ _ hw hh _) hfw hfh
    case ne =>
      simp +decide only [resizeRect, inLeft, inRight, inTop, inBottom, isCorner,
        Bool.false_eq_true, if_false, if_true] at hfw hfh ⊢
      exact flipFloor_ratio orig.w orig.h (4 / zoom) _ _ hw hh
        (aspect_pair orig.w orig.h _ _ hw hh _) hfw hfh
    case se =>
      simp +decide only [resizeRect, inLeft, inRight, inTop, inBottom, isCorner,
        Bool.false_eq_true, if_false, if_true] at hfw hfh ⊢
      exact flipFloor_ratio orig.w orig.h (4 / zoom) _ _ hw hh
        (aspect_pair orig.w orig.h _ _ hw hh _) hfw hfh
    case sw =>
      simp +decide only [resizeRect, inLeft, inRight, inTop, inBottom, isCorner,
        Bool.false_eq_true, if_false, if_true] at hfw hfh ⊢
      exact flipFloor_ratio orig.w orig.h (4 / zoom) _ _ hw hh
        (aspect_pair orig.w orig.h _ _ hw hh _) hfw hfh
    case n => exact Bool.noConfusion hc
    case s => exact Bool.noConfusion hc
    case e => exact Bool.noConfusion hc
    case w => exact Bool.noConfusion hc
  · intro hdx hdy
    simp +decide only [resizeRect, inLeft, inRight, inTop, inBottom, isCorner,
      Bool.false_eq_true, if_false, if_true]
    constructor <;>
      (split_ifs <;>
        first
          | rfl
          | linarith
          | (exfalso; nlinarith [mul_pos (show (0:ℚ) < orig.h + (p.y - start.y) by linarith)
              (div_pos hw hh),
              div_pos (show (0:ℚ) < orig.w + (p.x - start.x) by linarith) (div_pos hw hh)]))
  · intro hdx hdy
    constructor
    · intro hfw
      simp +decide only [resizeRect, inLeft, inRight, inTop, inBottom, isCorner,
        Bool.false_eq_true, if_false, if_true] at hfw ⊢
      split_ifs at hfw ⊢ <;>
        first
          | ring1
          | linarith
          | (exfalso; nlinarith [mul_pos (show (0:ℚ) < orig.h - (p.y - start.y) by linarith)
              (div_pos hw hh),
              div_pos (show (0:ℚ) < orig.w - (p.x - start.x) by linarith) (div_pos hw hh)])
    · intro hfh
      simp +decide only [resizeRect, inLeft, inRight, inTop, inBottom, isCorner,
        Bool.false_eq_true, if_false, if_true] at hfh ⊢
      split_ifs at hfh ⊢ <;>
        first
          | ring1
          | linarith
          | (exfalso; nlinarith [mul_pos (show (0:ℚ) < orig.h - (p.y - start.y) by linarith)
              (div_pos hw hh),
              div_pos (show (0:ℚ) < orig.w - (p.x - start.x) by linarith) (div_pos hw hh)])
  · intro hdx hdy
    constructor
    · simp +decide only [resizeRect, inLeft, inRight, inTop, inBottom, isCorner,
        Bool.false_eq_true, if_false, if_true]
      split_ifs <;>
        first
          | rfl
          | linarith
          | (exfalso; nlinarith [mul_pos (show (0:ℚ) < orig.h - (p.y - start.y) by linarith)
              (div_pos hw hh),
              div_pos (show (0:ℚ) < orig.w + (p.x - start.x) by linarith) (div_pos hw hh)])
    · intro hfh
      simp +decide only [resizeRect, inLeft, inRight, inTop, inBottom, isCorner,
        Bool.false_eq_true, if_false, if_true] at hfh ⊢
      split_ifs at hfh ⊢ <;>
        first
          | ring1
          | linarith
          | (exfalso; nlinarith [mul_pos (show (0:ℚ) < orig.h - (p.y - start.y) by linarith)
              (div_pos hw hh),
              div_pos (show (0:ℚ) < orig.w + (p.x - start.x) by linarith) (div_pos hw hh)])
  · intro hdx hdy
    constructor
    · simp +decide only [resizeRect, inLeft, inRight, inTop, inBottom, isCorner,
        Bool.false_eq_true, if_false, if_true]
      split_ifs <;>
        first
          | rfl
          | linarith
          | (exfalso; nlinarith [mul_pos (show (0:ℚ) < orig.h + (p.y - start.y) by linarith)
              (div_pos hw hh),
              div_pos (show (0:ℚ) < orig.w - (p.x - start.x) by linarith) (div_pos hw hh)])
    · intro hfw
      simp +decide only [resizeRect, inLeft, inRight, inTop, inBottom, isCorner,
        Bool.false_eq_true, if_false, if_true] at hfw ⊢
      split_ifs at hfw ⊢ <;>
        first
          | ring1
          | linarith
          | (exfalso; nlinarith [mul_pos (show (0:ℚ) < orig.h + (p.y - start.y) by linarith)
              (div_pos hw hh),
              div_pos (show (0:ℚ) < orig.w - (p.x - start.x) by linarith) (div_pos hw hh)])
  · intro hmin
    simp +decide only [resizeRect, inLeft, inRight, inTop, inBottom, isCorner,
      Bool.false_eq_true, if_false, if_true]
    refine ⟨?_, ?_, ?_, ?_⟩ <;> (split_ifs <;> first | rfl | linarith)
  · intro hmin
    simp +decide only [resizeRect, inLeft, inRight, inTop, inBottom, isCorner,
      Bool.false_eq_true, if_false, if_true]
    refine ⟨?_, ?_, ?_, ?_⟩ <;> (split_ifs <;> first | rfl | linarith)
  · intro hflip
    simp +decide only [resizeRect, inLeft, inRight, inTop, inBottom, isCorner,
      Bool.false_eq_true, if_false, if_true]
    constructor
    · split_ifs <;> first | rfl | linarith
    · rw [if_pos hflip]
      split_ifs with hfloor
      · exact (max_eq_left hfloor.le).symm
      · exact (max_eq_right (le_of_not_lt hfloor)).symm
  · intro hdx hdy
    constructor
    · intro hdom hfw hfh
      have hdom' : |orig.w + (p.x - start.x) - orig.w| / orig.w >
          |orig.h + (p.y - start.y) - orig.h| / orig.h := by
        rw [add_sub_cancel_left, add_sub_cancel_left]
        exact hdom
      have hposw : (0 : ℚ) < orig.w + (p.x - start.x) := by linarith
      simp +decide only [resizeRect, inLeft, inRight, inTop, inBottom, isCorner,
        Bool.false_eq_true, if_false, if_true] at hfw hfh ⊢
      simp only [if_pos hdom'] at hfw hfh ⊢
      simp only [if_neg (not_lt.mpr hposw.le)] at hfw ⊢
      have hposh : (0 : ℚ) < (orig.w + (p.x - start.x)) / (orig.w / orig.h) :=
        div_pos hposw (div_pos hw hh)
      simp only [if_neg (not_lt.mpr hposh.le)] at hfh ⊢
      constructor
      · exact floorClamp_eq_self _ _ hfw
      · rw [floorClamp_eq_self _ _ hfh]
        exact div_div_eq_mul_div _ _ _
    · intro hndom hfw hfh
      have hndom' : ¬(|orig.w + (p.x - start.x) - orig.w| / orig.w >
          |orig.h + (p.y - start.y) - orig.h| / orig.h) := by
        rw [add_sub_cancel_left, add_sub_cancel_left]
        exact hndom
      have hposh : (0 : ℚ) < orig.h + (p.y - start.y) := by linarith
      simp +decide only [resizeRect, inLeft, inRight, inTop, inBottom, isCorner,
        Bool.false_eq_true, if_false, if_true] at hfw hfh ⊢
      simp only [if_neg hndom'] at hfw hfh ⊢
      simp only [if_neg (not_lt.mpr hposh.le)] at hfh ⊢
      have hposw : (0 : ℚ) < (orig.h + (p.y - start.y)) * (orig.w / orig.h) :=
        mul_pos hposh (div_pos hw hh)
      simp only [if_neg (not_lt.mpr hposw.le)] at hfw ⊢
      constructor
      · exact floorClamp_eq_self _ _ hfh
      · rw [floorClamp_eq_self _ _ hfw]
        exact (mul_div_assoc _ _ _).symm

theorem applyResize_geometry_witness :
    (0 : ℚ) < 8 ∧ (0 : ℚ) < (Rect.mk 0 0 2 1).w ∧ (0 : ℚ) < (Rect.mk 0 0 2 1).h ∧
    (0 : ℚ) ≤ (Point.mk 1 0).x - (Point.mk 0 0).x ∧
    (0 : ℚ) ≤ (Point.mk 1 0).y - (Point.mk 0 0).y ∧
    ((resizeRect 8 ResizeHandle.se (Rect.mk 0 0 2 1) (Point.mk 0 0) (Point.mk 1 0)).x =
        (Rect.mk 0 0 2 1).x ∧
      (resizeRect 8 ResizeHandle.se (Rect.mk 0 0 2 1) (Point.mk 0 0) (Point.mk 1 0)).y =
        (Rect.mk 0 0 2 1).y) :=
  ⟨by norm_num, by norm_num, by norm_num, by norm_num, by norm_num,
    (applyResize_geometry 8 (Rect.mk 0 0 2 1) (Point.mk 0 0) (Point.mk 1 0)
      (by norm_num) (by norm_num) (by norm_num)).2.2.1 (by norm_num) (by norm_num)⟩

end Ketchup
